import Mathlib

/-!
Verification of the airtable-typegen schema-to-code translation engine.

The definitions below are a shallow embedding of the repository's source:
`getZodType`/`getTsType` and the shared-shape templates come from
`src/utils/field-mappings.ts`, the generators `generateZodSchemas` /
`generateTSDefinitions` and the table selection come from the CLI command
module.  Helper functions that live in files not included in the source
snapshot (`src/utils/helpers.ts`, `src/schemas/fields.ts`) are modelled from
the specification and marked as such in their doc comments.

Machine strings are Lean `String`s; thrown JavaScript errors are modelled
with `Except String`; the imperative `lines.push(...)` accumulation is
modelled by list concatenation in push order, joined with newlines at the
end exactly as the source's final `lines.join('\n')` does.
-/

/-! ### Character-level helpers (for the `change-case` pascalCase model) -/

/-- Pairs of lowercase/uppercase ASCII letters, used to model case mapping. -/
def casePairs : List (Char × Char) :=
  [('a', 'A'), ('b', 'B'), ('c', 'C'), ('d', 'D'), ('e', 'E'), ('f', 'F'),
   ('g', 'G'), ('h', 'H'), ('i', 'I'), ('j', 'J'), ('k', 'K'), ('l', 'L'),
   ('m', 'M'), ('n', 'N'), ('o', 'O'), ('p', 'P'), ('q', 'Q'), ('r', 'R'),
   ('s', 'S'), ('t', 'T'), ('u', 'U'), ('v', 'V'), ('w', 'W'), ('x', 'X'),
   ('y', 'Y'), ('z', 'Z')]

/-- Uppercase an ASCII letter, leave other characters unchanged. -/
def upChar (c : Char) : Char :=
  (((casePairs.find? (fun p => p.1 == c)).map (fun p => p.2)).getD c)

/-- Lowercase an ASCII letter, leave other characters unchanged. -/
def downChar (c : Char) : Char :=
  (((casePairs.find? (fun p => p.2 == c)).map (fun p => p.1)).getD c)

/-- True for the ASCII alphanumeric characters kept by identifier
normalization. -/
def isAlphanum (c : Char) : Bool :=
  c.isAlpha || c.isDigit

/-- Word-wise normalization: drop non-alphanumeric characters, uppercase the
first character of every word, lowercase the rest.  The flag records whether
the next alphanumeric character starts a word. -/
def pascalChars : Bool → List Char → List Char
  | _, [] => []
  | up, c :: cs =>
    if isAlphanum c then
      (if up then upChar c else downChar c) :: pascalChars false cs
    else
      pascalChars true cs

/-- Model of the `change-case` library's `pascalCase`, the identifier
normalizer used for table names, schema names and enum names. -/
def pascalCase (s : String) : String :=
  ⟨pascalChars true s.data⟩

/-- The character for a single decimal digit (inputs are always `< 10`). -/
def digitChar (d : Nat) : Char :=
  if d = 0 then '0' else if d = 1 then '1' else if d = 2 then '2'
  else if d = 3 then '3' else if d = 4 then '4' else if d = 5 then '5'
  else if d = 6 then '6' else if d = 7 then '7' else if d = 8 then '8'
  else '9'

/-- Value of a decimal digit character, inverse of `digitChar`. -/
def digitVal (c : Char) : Nat :=
  if c = '0' then 0 else if c = '1' then 1 else if c = '2' then 2
  else if c = '3' then 3 else if c = '4' then 4 else if c = '5' then 5
  else if c = '6' then 6 else if c = '7' then 7 else if c = '8' then 8
  else 9

/-- Big-endian decimal digits of `n`; the fuel argument bounds recursion
depth and any fuel `≥ n` is sufficient. -/
def natChars : Nat → Nat → List Char
  | 0, _ => []
  | _ + 1, 0 => []
  | fuel + 1, n + 1 =>
    natChars fuel ((n + 1) / 10) ++ [digitChar ((n + 1) % 10)]

/-- Decimal numeral for `n` (empty for `0`; only used with `n ≥ 2`). -/
def natSuffix (n : Nat) : String :=
  ⟨natChars n n⟩

/-- Numeric value of a digit string, used to prove `natSuffix` injective. -/
def charsToNat (l : List Char) : Nat :=
  l.foldl (fun a c => 10 * a + digitVal c) 0

/-- JavaScript `Array.prototype.join` on strings. -/
def joinSep (sep : String) : List String → String
  | [] => ""
  | [x] => x
  | x :: y :: xs => x ++ sep ++ joinSep sep (y :: xs)

/-- Run an `Except`-valued function over a list, aborting at the first
error — the behavior of a `for` loop whose body may `throw`. -/
def exceptMapM (f : α → Except ε β) : List α → Except ε (List β)
  | [] => .ok []
  | x :: xs =>
    match f x with
    | .error e => .error e
    | .ok y =>
      match exceptMapM f xs with
      | .error e => .error e
      | .ok ys => .ok (y :: ys)

/-! ### Data model (`src/schemas/api`, validated Airtable metadata) -/

/-- Field metadata: the raw field-type tag is machine text, and the
tag-specific options are flattened into optional components (`precision` for
the numeric family, `choices` for select fields, `linkedTableId` for record
links, `resultType` for computed fields' declared result type). -/
structure FieldMetadata where
  id : String
  name : String
  type : String
  precision : Option Nat := none
  choices : List String := []
  linkedTableId : Option String := none
  resultType : Option String := none
deriving DecidableEq

/-- Table metadata: identity plus the ordered field list. -/
structure TableMetadata where
  id : String
  name : String
  fields : List FieldMetadata
deriving DecidableEq

/-- Base metadata: identity only. -/
structure BaseMetadata where
  id : String
  name : String
deriving DecidableEq

/-- The closed enumeration of field-type tags handled by both mappers
(every `case` label of `getZodType`/`getTsType`). -/
def knownTags : List String :=
  ["aiText", "autoNumber", "barcode", "button", "checkbox", "count",
   "createdBy", "createdTime", "currency", "date", "dateTime", "duration",
   "email", "externalSyncSource", "formula", "lastModifiedBy",
   "lastModifiedTime", "multilineText", "multipleAttachments",
   "multipleCollaborators", "multipleLookupValues", "multipleRecordLinks",
   "multipleSelects", "number", "percent", "phoneNumber", "rating",
   "richText", "rollup", "singleCollaborator", "singleLineText",
   "singleSelect", "url"]

/-! ### Helpers modelled from the spec (`src/utils/helpers.ts` is not in the
source snapshot) -/

/-- Modelled from the spec: `isReadonlyField` (declared in
`src/utils/helpers.ts`, absent from the snapshot).  Spec section 4.2: the
system-computed categories — auto-incrementing counters, aggregate
rollups/lookups, computed formulas, creation/modification timestamps and
actors, external-sync placeholders — are readonly; all user-editable
categories are not. -/
def isReadonlyField (field : FieldMetadata) : Bool :=
  ["autoNumber", "count", "createdBy", "createdTime", "formula",
   "lastModifiedBy", "lastModifiedTime", "multipleLookupValues", "rollup",
   "externalSyncSource"].contains field.type

/-- Modelled from the spec: `hasAttachmentField` (declared in
`src/utils/helpers.ts`, absent from the snapshot) — whether any field has
the attachment category, i.e. the `multipleAttachments` tag. -/
def hasAttachmentField (fields : List FieldMetadata) : Bool :=
  fields.any (fun f => f.type == "multipleAttachments")

/-- Modelled from the spec: `hasCollaboratorField` (declared in
`src/utils/helpers.ts`, absent from the snapshot) — whether any field has
the collaborator category; these are exactly the tags that both mappers send
to the shared collaborator shape. -/
def hasCollaboratorField (fields : List FieldMetadata) : Bool :=
  fields.any (fun f =>
    ["createdBy", "lastModifiedBy", "singleCollaborator",
     "multipleCollaborators"].contains f.type)

/-- True for the two enumerated-choice tags. -/
def isSelectTag (t : String) : Bool :=
  t == "singleSelect" || t == "multipleSelects"

/-- The enum-name candidate before disambiguation: derived from the table's
and the field's display names, normalized to identifier form, with a fixed
`Enum` marker. -/
def enumCandidate (table : TableMetadata) (field : FieldMetadata) : String :=
  pascalCase table.name ++ pascalCase field.name ++ "Enum"

/-- Modelled from the spec: `getFieldEnumName` (declared in
`src/utils/helpers.ts`, absent from the snapshot).  Spec section 4.3: a
deterministic name derived from the table's and field's display names,
normalized to a valid identifier; two fields with the same display name
produce the same candidate, and collisions are disambiguated by appending a
numeric suffix in first-seen order (the first-seen field keeps the bare
candidate, the k-th later collision gets the numeral `k + 1`). -/
def getFieldEnumName (table : TableMetadata) (field : FieldMetadata) : String :=
  let cand := enumCandidate table field
  let prior :=
    ((table.fields.takeWhile (fun g => g.id != field.id)).filter
      (fun g => isSelectTag g.type && enumCandidate table g == cand)).length
  if prior = 0 then cand else cand ++ natSuffix (prior + 1)

/-- The number of earlier select fields of the table whose candidate
collides with the candidate of `f` (the disambiguation ordinal source of
`getFieldEnumName`, with the id-based `takeWhile` already resolved to a
positional prefix). -/
def priorSame (table : TableMetadata) (m : Nat) (f : FieldMetadata) : Nat :=
  ((table.fields.take m).filter (fun g =>
    isSelectTag g.type && enumCandidate table g == enumCandidate table f)).length

/-! ### Field-type mappers (`src/utils/field-mappings.ts`) -/

/-- The message of the single hard failure of the engine, thrown by both
mappers on a tag outside the closed enumeration. -/
def unrecognizedMsg (field : FieldMetadata) : String :=
  "Unrecognized field type: " ++ field.type ++ " (on field \x27" ++
    field.name ++ "\x27)"

/-- The schema-validator (Zod) dialect mapper `getZodType`. -/
def getZodType (table : TableMetadata) (field : FieldMetadata) :
    Except String String :=
  match field.type with
  | "autoNumber" => .ok "z.number().int().positive()"
  | "barcode" => .ok "z.object(\x7b text: z.string(), type: z.string() \x7d)"
  | "button" =>
    .ok "z.object(\x7b label: z.string() \x7d).merge(z.record(z.unknown()))"
  | "checkbox" => .ok "z.boolean()"
  | "count" => .ok "z.number().int().nonnegative()"
  | "createdBy" => .ok "AirtableCollaboratorSchema"
  | "lastModifiedBy" => .ok "AirtableCollaboratorSchema"
  | "singleCollaborator" => .ok "AirtableCollaboratorSchema"
  | "date" => .ok "z.coerce.date()"
  | "dateTime" => .ok "z.coerce.date()"
  | "createdTime" => .ok "z.coerce.date()"
  | "lastModifiedTime" => .ok "z.coerce.date()"
  | "number" =>
    .ok (if field.precision == some 0 then "z.number().int().positive()"
      else "z.number().positive()")
  | "percent" =>
    .ok (if field.precision == some 0 then "z.number().int().positive()"
      else "z.number().positive()")
  | "currency" =>
    .ok (if field.precision == some 0 then "z.number().int().positive()"
      else "z.number().positive()")
  | "duration" => .ok "z.number()"
  | "rating" => .ok "z.number().min(0).max(5)"
  | "email" => .ok "z.string().email()"
  | "aiText" => .ok "z.string()"
  | "multilineText" => .ok "z.string()"
  | "phoneNumber" => .ok "z.string()"
  | "singleLineText" => .ok "z.string()"
  | "url" => .ok "z.string()"
  | "richText" => .ok "z.string()"
  | "rollup" => .ok "z.string().or(z.number())"
  | "formula" => .ok "z.string().or(z.number())"
  | "multipleCollaborators" => .ok "z.array(AirtableCollaboratorSchema)"
  | "multipleAttachments" => .ok "z.array(AirtableAttachmentSchema)"
  | "multipleLookupValues" =>
    .ok "z.union([z.array(z.string()), z.array(z.boolean()), z.array(z.number()), z.array(z.record(z.unknown()))])"
  | "multipleRecordLinks" => .ok "z.array(z.string())"
  | "singleSelect" => .ok (getFieldEnumName table field)
  | "multipleSelects" =>
    .ok ("z.array(" ++ getFieldEnumName table field ++ ")")
  | "externalSyncSource" => .ok "z.unknown()"
  | _ => .error (unrecognizedMsg field)

/-- The shared-shape fragment pushed for attachments in the Zod dialect.
Note: despite its name it declares `AirtableThumbnailSchema`, not
`AirtableAttachmentSchema`. -/
def AttachmentZodTmpl : String :=
  "export const AirtableThumbnailSchema = z.object(\x7b\n  url: z.string(),\n  width: z.number(),\n  height: z.number(),\n\x7d)"

/-- The shared-shape fragment pushed for collaborators in the Zod dialect. -/
def CollaboratorZodTmpl : String :=
  "export const AirtableCollaboratorSchema = z.object(\x7b\n  id: z.string(),\n  email: z.string(),\n  name: z.string(),\n\x7d)"

/-- Modelled from the spec: `CellFormatTypescriptDefinitions` (declared in
`src/schemas/fields.ts`, absent from the snapshot) composed with
`printNode`, i.e. the printed TypeScript cell-format type for each tag of
the closed enumeration.  Spec section 4.4: the static-typing mapper emits
language-native type syntax per category — boolean, numeric, string,
string-valued dates, and structural object types for the remaining
categories. -/
def cellFormatTs (t : String) : String :=
  match t with
  | "aiText" => "\x7b state: string; value: string; isStale: boolean \x7d"
  | "autoNumber" => "number"
  | "barcode" => "\x7b text: string; type: string \x7d"
  | "button" => "\x7b label: string; url: string \x7d"
  | "checkbox" => "boolean"
  | "count" => "number"
  | "createdBy" => "\x7b id: string; email: string; name: string \x7d"
  | "createdTime" => "string"
  | "currency" => "number"
  | "date" => "string"
  | "dateTime" => "string"
  | "duration" => "number"
  | "email" => "string"
  | "externalSyncSource" => "unknown"
  | "formula" => "string | number"
  | "lastModifiedBy" => "\x7b id: string; email: string; name: string \x7d"
  | "lastModifiedTime" => "string"
  | "multilineText" => "string"
  | "multipleAttachments" =>
    "Array<\x7b id: string; url: string; filename: string; size: number; type: string \x7d>"
  | "multipleCollaborators" =>
    "Array<\x7b id: string; email: string; name: string \x7d>"
  | "multipleLookupValues" =>
    "Array<string | boolean | number | Record<string, unknown>>"
  | "multipleRecordLinks" => "Array<string>"
  | "number" => "number"
  | "percent" => "number"
  | "phoneNumber" => "string"
  | "rating" => "number"
  | "richText" => "string"
  | "rollup" => "string | number"
  | "singleLineText" => "string"
  | "singleSelect" => "string"
  | "url" => "string"
  | "multipleSelects" => "Array<string>"
  | _ => "unknown"

/-- Options of the static-typing mapper. -/
structure TsOptions where
  useAirtableLibraryTypes : Bool
deriving DecidableEq

/-- The literal union of quoted choice names, `'A' | 'B' | ...`. -/
def choiceUnion (choices : List String) : String :=
  joinSep " | " (choices.map (fun c => "\x27" ++ c ++ "\x27"))

/-- The static-typing dialect mapper `getTsType`. -/
def getTsType (field : FieldMetadata) (opts : TsOptions) :
    Except String String :=
  match field.type with
  | "aiText" =>
    .ok (if opts.useAirtableLibraryTypes then "string"
      else cellFormatTs field.type)
  | "button" =>
    .ok (if opts.useAirtableLibraryTypes then "string"
      else cellFormatTs field.type)
  | "autoNumber" => .ok (cellFormatTs field.type)
  | "barcode" => .ok (cellFormatTs field.type)
  | "checkbox" => .ok (cellFormatTs field.type)
  | "count" => .ok (cellFormatTs field.type)
  | "currency" => .ok (cellFormatTs field.type)
  | "date" => .ok (cellFormatTs field.type)
  | "dateTime" => .ok (cellFormatTs field.type)
  | "duration" => .ok (cellFormatTs field.type)
  | "email" => .ok (cellFormatTs field.type)
  | "externalSyncSource" => .ok (cellFormatTs field.type)
  | "multilineText" => .ok (cellFormatTs field.type)
  | "multipleCollaborators" => .ok (cellFormatTs field.type)
  | "multipleRecordLinks" => .ok (cellFormatTs field.type)
  | "number" => .ok (cellFormatTs field.type)
  | "percent" => .ok (cellFormatTs field.type)
  | "phoneNumber" => .ok (cellFormatTs field.type)
  | "rating" => .ok (cellFormatTs field.type)
  | "richText" => .ok (cellFormatTs field.type)
  | "singleLineText" => .ok (cellFormatTs field.type)
  | "url" => .ok (cellFormatTs field.type)
  | "createdBy" =>
    .ok (if opts.useAirtableLibraryTypes then "Airtable.Collaborator"
      else "IAirtableCollaborator")
  | "lastModifiedBy" =>
    .ok (if opts.useAirtableLibraryTypes then "Airtable.Collaborator"
      else "IAirtableCollaborator")
  | "singleCollaborator" =>
    .ok (if opts.useAirtableLibraryTypes then "Airtable.Collaborator"
      else "IAirtableCollaborator")
  | "multipleAttachments" =>
    .ok (if opts.useAirtableLibraryTypes then "Airtable.Attachment[]"
      else "Array<IAirtableAttachment>")
  | "createdTime" => .ok (cellFormatTs (field.resultType.getD field.type))
  | "formula" => .ok (cellFormatTs (field.resultType.getD field.type))
  | "lastModifiedTime" =>
    .ok (cellFormatTs (field.resultType.getD field.type))
  | "multipleLookupValues" =>
    .ok (cellFormatTs (field.resultType.getD field.type))
  | "rollup" => .ok (cellFormatTs (field.resultType.getD field.type))
  | "singleSelect" => .ok (choiceUnion field.choices)
  | "multipleSelects" => .ok ("Array<" ++ choiceUnion field.choices ++ ">")
  | _ => .error (unrecognizedMsg field)

/-- The additional TypeScript emitted for attachment shapes
(`tsExtras.getAdditionalTsForAttachments`). -/
def tsAttachmentExtra : String :=
  "\n  export interface IAirtableThumbnail \x7b\n    url: string\n    width: number\n    height: number\n  \x7d\n  export interface IAirtableAttachment \x7b\n    id: string\n    url: string\n    filename: string\n    size: number\n    type: string\n    thumbnails?: \x7b\n      small: IAirtableThumbnail\n      large: IAirtableThumbnail\n      full: IAirtableThumbnail\n    \x7d\n  \x7d\n  "

/-- The additional TypeScript emitted for collaborator shapes
(`tsExtras.getAdditionalTsForCollaborators`). -/
def tsCollaboratorExtra : String :=
  "\n  export interface IAirtableCollaborator \x7b\n    id: string\n    email: string\n    name: string\n  \x7d\n  "

/-! ### Table selection (the post-validation part of `getTableMetadata`) -/

/-- The fatal table-selection error message, enumerating the requested
entries and the names of the tables that were found. -/
def selectErrMsg (allowlist : List String) (found : List TableMetadata) :
    String :=
  "Could not find all tables:\n\nRequested: " ++ joinSep ", " allowlist ++
    "\nFound: " ++ joinSep ", " (found.map (fun t => t.name))

/-- The allow-list resolution step of `getTableMetadata`: keep the tables
whose id or name appears in the allow-list, in metadata order, and fail when
the number of kept tables differs from the number of requested entries. -/
def selectTables (allowlist : Option (List String))
    (tables : List TableMetadata) : Except String (List TableMetadata) :=
  match allowlist with
  | none => .ok tables
  | some al =>
    let sel := tables.filter (fun t => al.contains t.id || al.contains t.name)
    if sel.length ≠ al.length then .error (selectErrMsg al sel)
    else .ok sel

/-! ### Zod generator (`generateZodSchemas`) -/

/-- The per-field entry of a table's Zod object, with the optionality
suffix chosen by the readonly classification. -/
def zodFieldLine (field : FieldMetadata) (fieldType : String) : String :=
  "  \x27" ++ field.name ++ "\x27: " ++ fieldType ++
    (if isReadonlyField field then "," else ".optional(),")

/-- The enum declaration lines pushed for one select field (empty for other
fields). -/
def zodEnumBlock (table : TableMetadata) (field : FieldMetadata) :
    List String :=
  if field.type == "singleSelect" || field.type == "multipleSelects" then
    ["export const " ++ getFieldEnumName table field ++ " = z.enum(["] ++
      field.choices.map (fun c => "  \x27" ++ c ++ "\x27,") ++ ["])", ""]
  else []

/-- All lines pushed for one table in the Zod dialect: the enum
declarations of its select fields, then its object schema with one entry
per field, then the inferred type alias. -/
def zodTableBlock (table : TableMetadata) : Except String (List String) :=
  match exceptMapM
      (fun f =>
        match getZodType table f with
        | .error e => .error e
        | .ok ft => .ok (zodFieldLine f ft))
      table.fields with
  | .error e => .error e
  | .ok fieldLines =>
    .ok ((table.fields.map (zodEnumBlock table)).flatten ++
      ["export const " ++ pascalCase table.name ++
        "Schema = z.object(\x7b"] ++
      fieldLines ++
      ["\x7d)",
       "export type " ++ pascalCase table.name ++ " = z.infer<typeof " ++
         pascalCase table.name ++ "Schema>",
       ""])

/-- The preamble of the Zod output: the import line plus each needed shared
shape, emitted at most once. -/
def zodPreamble (tables : List TableMetadata) : List String :=
  ["import \x7b z \x7d from \x27zod\x27", ""] ++
    (if hasAttachmentField ((tables.map (fun t => t.fields)).flatten) then
      [AttachmentZodTmpl, ""] else []) ++
    (if hasCollaboratorField ((tables.map (fun t => t.fields)).flatten) then
      [CollaboratorZodTmpl, ""] else [])

/-- All lines of the Zod output, in push order. -/
def generateZodLines (tables : List TableMetadata) :
    Except String (List String) :=
  match exceptMapM zodTableBlock tables with
  | .error e => .error e
  | .ok blocks => .ok (zodPreamble tables ++ blocks.flatten)

/-- `generateZodSchemas`: the assembled Zod-dialect output text. -/
def generateZodSchemas (tables : List TableMetadata) :
    Except String String :=
  match generateZodLines tables with
  | .error e => .error e
  | .ok lines => .ok (joinSep "\n" lines)

/-! ### TypeScript generator (`generateTSDefinitions`) -/

/-- The CLI flags that reach the TypeScript generator: `--controllers`
(aggregate-access scaffold plus Airtable library types) and `--id` (strongly
typed identifiers for reference fields). -/
structure TsFlags where
  controllers : Bool
  genIds : Bool
deriving DecidableEq

/-- The reference-field resolution of `generateTSDefinitions`: the last
table of the generation set whose id equals the field's `linkedTableId`
provides the element type, with the generic `AirtableUid` fallback when no
table matches. -/
def resolveLinkedType (tables : List TableMetadata)
    (field : FieldMetadata) : String :=
  let linkedTableIdType :=
    ((tables.filter (fun t => field.linkedTableId == some t.id)).map
      (fun t => pascalCase t.name ++ "Id")).getLast?
  "Array<" ++ linkedTableIdType.getD "AirtableUid" ++ ">"

/-- The field type used in the TypeScript dialect: the mapper output,
overridden for `multipleRecordLinks` fields when strong identifiers are
requested. -/
def tsFieldTypeResolved (tables : List TableMetadata) (genIds : Bool)
    (field : FieldMetadata) (opts : TsOptions) : Except String String :=
  match getTsType field opts with
  | .error e => .error e
  | .ok base =>
    .ok (if genIds && field.type == "multipleRecordLinks" then
      resolveLinkedType tables field else base)

/-- The per-field entry of a table's interface, with the optionality marker
chosen by the readonly classification. -/
def tsFieldLineStr (field : FieldMetadata) (fieldType : String) : String :=
  "  \x27" ++ field.name ++ "\x27" ++
    (if isReadonlyField field then "" else "?") ++ ": " ++ fieldType

/-- All lines pushed for one table in the TypeScript dialect. -/
def tsTableBlock (flags : TsFlags) (tables : List TableMetadata)
    (table : TableMetadata) : Except String (List String) :=
  match exceptMapM
      (fun f =>
        match tsFieldTypeResolved tables flags.genIds f
            ⟨flags.controllers⟩ with
        | .error e => .error e
        | .ok ft => .ok (tsFieldLineStr f ft))
      table.fields with
  | .error e => .error e
  | .ok fieldLines =>
    .ok (["", "export type " ++ pascalCase table.name ++
        "Id = AirtableUid;", "",
      "export interface " ++ pascalCase table.name ++
        (if flags.controllers then
          " extends FieldSetWithId<" ++ pascalCase table.name ++ "Id>"
         else "") ++ " \x7b",
      "  _id?: " ++ pascalCase table.name ++
        "Id; // not respected by the official Airtable Library"] ++
      fieldLines ++ ["\x7d", ""])

/-- The preamble of the TypeScript output: either the Airtable library
module import (controllers mode) or each needed shared shape, then the two
fixed identifier-type aliases. -/
def tsPreamble (controllers : Bool) (allFields : List FieldMetadata) :
    List String :=
  (if controllers then ["import Airtable from \x27airtable\x27;"]
   else
    (if hasAttachmentField allFields then [tsAttachmentExtra, ""] else []) ++
      (if hasCollaboratorField allFields then [tsCollaboratorExtra, ""]
       else [])) ++
  ["export type AirtableUid = string;",
   "export type FieldSetWithId<T extends AirtableUid> = Omit<Airtable.FieldSet, keyof Airtable.FieldSet> & \x7b _id?: T \x7d;"]

/-- The generic typed-table class template pushed in controllers mode,
ending with the opening of the per-base class. -/
def tsClassTemplate (base : BaseMetadata) : String :=
  "\nexport class TypedTable<ID extends AirtableUid, T extends FieldSetWithId<ID>> \x7b\n  readonly _id : string\n  readonly _name : string\n  readonly table: Airtable.Table<T>\n  constructor(base: InstanceType<typeof Airtable.Base>, id: string, name: string) \x7b\n    this._id = id\n    this._name = name\n    this.table = new Airtable.Table<T>(base, id, name);\n  \x7d\n  async find(id: ID): Promise<T | undefined> \x7b\n    const result = await this.table.find(id)\n    return result && result.fields ? \x7b_id: id, ...result.fields\x7d : undefined;\n  \x7d\n  async select(options?: Airtable.SelectOptions<T>): Promise<T[]> \x7b\n    const result = await this.table.select(options).all()\n    return result.map(r => (\x7b_id: r.id, ...r.fields\x7d))\n  \x7d\n  async create(recordData: string | (Partial<T> & \x7b_id: undefined\x7d)): Promise<T> \x7b\n    const result = await this.table.create(recordData)\n    return \x7b_id: result.id as ID, ...result.fields\x7d\n  \x7d\n  async update(recordData: Partial<T> & \x7b_id: ID\x7d): Promise<T> \x7b\n    const \x7b_id, ...fields \x7d = recordData\n    const result = await this.table.update(_id, fields as Partial<T>)\n    return \x7b_id, ...result.fields\x7d\n  \x7d\n  async destroy(id: ID): Promise<T> \x7b\n    const result = await this.table.destroy(id)\n    return \x7b_id: id, ...result.fields\x7d\n  \x7d\n\x7d\n\nexport class " ++
    (pascalCase base.name ++ "Base") ++
    " \x7b\n  readonly at: Airtable\n  readonly base: InstanceType<typeof Airtable.Base>\n  static readonly _id: string = \x27" ++
    base.id ++ "\x27\n  static readonly _name: string = \x27" ++ base.name ++
    "\x27\n  constructor(options: Airtable.AirtableOptions) \x7b\n      this.at = new Airtable(options)\n      this.base = new Airtable.Base(this.at, " ++
    (pascalCase base.name ++ "Base") ++ "._id);\n  \x7d"

/-- One table accessor of the per-base class. -/
def tsAccessorLine (table : TableMetadata) : String :=
  "  get" ++ pascalCase table.name ++ "Table = ()=> new TypedTable<" ++
    pascalCase table.name ++ "Id, " ++ pascalCase table.name ++
    ">(this.base, \x27" ++ table.id ++ "\x27, \x27" ++ table.name ++
    "\x27);"

/-- The aggregate-access scaffold appended in controllers mode. -/
def tsScaffold (controllers : Bool) (base : BaseMetadata)
    (tables : List TableMetadata) : List String :=
  if controllers then
    [tsClassTemplate base, ""] ++ tables.map tsAccessorLine ++
      ["\x7d", ""]
  else []

/-- All lines of the TypeScript output, in push order. -/
def generateTSLines (flags : TsFlags) (base : BaseMetadata)
    (tables : List TableMetadata) : Except String (List String) :=
  match exceptMapM (tsTableBlock flags tables) tables with
  | .error e => .error e
  | .ok blocks =>
    .ok (tsPreamble flags.controllers
        ((tables.map (fun t => t.fields)).flatten) ++
      blocks.flatten ++ tsScaffold flags.controllers base tables)

/-- `generateTSDefinitions`: the assembled TypeScript-dialect output text. -/
def generateTSDefinitions (flags : TsFlags) (base : BaseMetadata)
    (tables : List TableMetadata) : Except String String :=
  match generateTSLines flags base tables with
  | .error e => .error e
  | .ok lines => .ok (joinSep "\n" lines)

deriving instance DecidableEq for Except

example : getZodType ⟨"t", "T", []⟩
    { id := "f", name := "N", type := "rating" } =
    .ok "z.number().min(0).max(5)" := by decide
example : getTsType
    { id := "f", name := "N", type := "singleSelect",
      choices := ["Red", "Green"] } ⟨false⟩ =
    .ok "\x27Red\x27 | \x27Green\x27" := by decide

/-! ### Sample metadata for concrete witnesses -/

/-- A sample base. -/
def sampleBase : BaseMetadata := ⟨"app1", "Sample Base"⟩

/-- A sample linked-to table. -/
def linkTable : TableMetadata := ⟨"tbl2", "Other Things", []⟩

/-- A reference field linking to `linkTable`. -/
def fldLink : FieldMetadata :=
  { id := "f5", name := "Links", type := "multipleRecordLinks",
    linkedTableId := some "tbl2" }

/-- A field with a tag outside the closed enumeration. -/
def fldBad : FieldMetadata := { id := "f0", name := "Bad", type := "wizardHat" }

/-- A boolean field. -/
def fldCheckbox : FieldMetadata :=
  { id := "f1", name := "Done", type := "checkbox" }

/-- A zero-precision numeric field. -/
def fldNum0 : FieldMetadata :=
  { id := "f2", name := "Amount", type := "number", precision := some 0 }

/-- A two-decimal numeric field. -/
def fldNum2 : FieldMetadata :=
  { id := "f3", name := "Amount2", type := "number", precision := some 2 }

/-- A select field with two choices. -/
def fldSelect : FieldMetadata :=
  { id := "f4", name := "Color", type := "singleSelect",
    choices := ["Red", "Green"] }

/-- A select field with no choices. -/
def fldSelectEmpty : FieldMetadata :=
  { id := "f6", name := "Nothing", type := "singleSelect", choices := [] }

/-- An attachment field. -/
def fldAttach : FieldMetadata :=
  { id := "f7", name := "Files", type := "multipleAttachments" }

/-- A readonly formula field with a declared numeric result type. -/
def fldFormula : FieldMetadata :=
  { id := "f8", name := "Calc", type := "formula",
    resultType := some "number" }

/-- A readonly formula field with no declared result type. -/
def fldFormulaNone : FieldMetadata :=
  { id := "f9", name := "Calc2", type := "formula" }

/-- A plain text field. -/
def fldText : FieldMetadata :=
  { id := "fa", name := "Name", type := "singleLineText" }

/-- A sample table holding the sample fields. -/
def sampleTable : TableMetadata :=
  ⟨"tbl1", "My Table", [fldText, fldAttach, fldNum0, fldSelect, fldLink]⟩

/-- A table whose two select fields share a display name. -/
def dupTable : TableMetadata :=
  ⟨"tbl3", "Dup",
   [{ id := "g1", name := "Color", type := "singleSelect",
      choices := ["A"] },
    { id := "g2", name := "Color", type := "multipleSelects",
      choices := ["B"] }]⟩

/-- A table named like its allow-list entry, for duplicate-entry runs. -/
def tblA : TableMetadata := ⟨"tblX", "A", []⟩

/-- A table whose only field is an attachment field. -/
def attachOnlyTable : TableMetadata := ⟨"tbl9", "Docs", [fldAttach]⟩

/-! ### Generic helper lemmas -/

theorem str_ne_of_head {s t : String} (h : s.data.head? ≠ t.data.head?) :
    s ≠ t := by
  intro he
  exact h (by rw [he])

theorem str_ne_of_last {s t : String}
    (h : s.data.getLast? ≠ t.data.getLast?) : s ≠ t := by
  intro he
  exact h (by rw [he])

theorem str_head_left {a : String} {c : Char} (b : String)
    (h : a.data.head? = some c) : (a ++ b).data.head? = some c := by
  rw [String.data_append, List.head?_append_of_ne_nil]
  · exact h
  · intro hn
    rw [hn] at h
    simp at h

theorem str_last_right (a : String) {b : String} {c : Char}
    (h : b.data.getLast? = some c) : (a ++ b).data.getLast? = some c := by
  rw [String.data_append, List.getLast?_append_of_ne_nil]
  · exact h
  · intro hn
    rw [hn] at h
    simp at h

theorem exceptMapM_ok_mem {f : α → Except ε β} :
    ∀ {l : List α} {ys : List β}, exceptMapM f l = .ok ys →
      ∀ y ∈ ys, ∃ x ∈ l, f x = .ok y := by
  intro l
  induction l with
  | nil =>
    intro ys h y hy
    simp only [exceptMapM, Except.ok.injEq] at h
    subst h
    simp at hy
  | cons x xs ih =>
    intro ys h y hy
    simp only [exceptMapM] at h
    cases hfx : f x with
    | error e => rw [hfx] at h; simp at h
    | ok y0 =>
      rw [hfx] at h
      cases hrec : exceptMapM f xs with
      | error e => rw [hrec] at h; simp at h
      | ok ys0 =>
        rw [hrec] at h
        simp only [Except.ok.injEq] at h
        subst h
        rcases List.mem_cons.mp hy with h1 | h2
        · exact ⟨x, List.mem_cons_self x xs, h1 ▸ hfx⟩
        · rcases ih hrec y h2 with ⟨x', hx', hfx'⟩
          exact ⟨x', List.mem_cons_of_mem x hx', hfx'⟩

theorem suffix_append_iff_of_len {l b : List Char} (a : List Char)
    (h : l.length ≤ b.length) : l <:+ a ++ b ↔ l <:+ b := by
  constructor
  · intro hs
    induction a with
    | nil => simpa using hs
    | cons x xs ih =>
      rw [List.cons_append] at hs
      rcases List.suffix_cons_iff.mp hs with h1 | h2
      · exfalso
        have hlen : l.length = (x :: (xs ++ b)).length := by rw [h1]
        simp [List.length_append] at hlen
        omega
      · exact ih h2
  · intro hs
    exact hs.trans (List.suffix_append a b)

theorem getLast?_all_eq {l : List α} (hne : l ≠ []) {c : α}
    (h : ∀ x ∈ l, x = c) : l.getLast? = some c := by
  induction l with
  | nil => exact absurd rfl hne
  | cons x xs ih =>
    cases hxs : xs with
    | nil =>
      subst hxs
      simp [h x (List.mem_cons_self x [])]
    | cons y ys =>
      rw [List.getLast?_cons_cons, ← hxs]
      exact ih (by simp [hxs]) (fun z hz => h z (List.mem_cons_of_mem x hz))

/-! ### Character-set lemmas for generated identifiers -/

theorem upChar_alnum {c : Char} (h : isAlphanum c = true) :
    isAlphanum (upChar c) = true := by
  unfold upChar
  cases hf : casePairs.find? (fun p => p.1 == c) with
  | none => simpa using h
  | some p =>
    have hmem := List.mem_of_find?_eq_some hf
    have hall : ∀ q ∈ casePairs, isAlphanum q.2 = true := by decide
    simpa using hall p hmem

theorem downChar_alnum {c : Char} (h : isAlphanum c = true) :
    isAlphanum (downChar c) = true := by
  unfold downChar
  cases hf : casePairs.find? (fun p => p.2 == c) with
  | none => simpa using h
  | some p =>
    have hmem := List.mem_of_find?_eq_some hf
    have hall : ∀ q ∈ casePairs, isAlphanum q.1 = true := by decide
    simpa using hall p hmem

theorem mem_pascalChars_alnum {c : Char} :
    ∀ {up : Bool} {l : List Char}, c ∈ pascalChars up l →
      isAlphanum c = true := by
  intro up l
  induction l generalizing up with
  | nil => simp [pascalChars]
  | cons x xs ih =>
    intro h
    unfold pascalChars at h
    by_cases hx : isAlphanum x = true
    · rw [if_pos hx] at h
      rcases List.mem_cons.mp h with h1 | h2
      · subst h1
        cases up with
        | true => simpa using upChar_alnum hx
        | false => simpa using downChar_alnum hx
      · exact ih h2
    · rw [if_neg hx] at h
      exact ih h

theorem mem_pascalCase_alnum {c : Char} {s : String}
    (h : c ∈ (pascalCase s).data) : isAlphanum c = true :=
  mem_pascalChars_alnum h

theorem digitChar_mem_digits (d : Nat) :
    digitChar d ∈ ['0', '1', '2', '3', '4', '5', '6', '7', '8', '9'] := by
  unfold digitChar
  repeat' split
  all_goals decide

theorem mem_natChars_digit {c : Char} :
    ∀ {f n : Nat}, c ∈ natChars f n →
      c ∈ ['0', '1', '2', '3', '4', '5', '6', '7', '8', '9'] := by
  intro f
  induction f with
  | zero => intro n h; simp [natChars] at h
  | succ f ih =>
    intro n h
    cases n with
    | zero => simp [natChars] at h
    | succ n =>
      unfold natChars at h
      rcases List.mem_append.mp h with h1 | h2
      · exact ih h1
      · rw [List.mem_singleton.mp h2]
        exact digitChar_mem_digits _

theorem natChars_ne_nil {f n : Nat} (hf : 1 ≤ f) (hn : 1 ≤ n) :
    natChars f n ≠ [] := by
  cases f with
  | zero => omega
  | succ f =>
    cases n with
    | zero => omega
    | succ n => simp [natChars]

theorem charsToNat_append_digit (l : List Char) (c : Char) :
    charsToNat (l ++ [c]) = 10 * charsToNat l + digitVal c := by
  simp [charsToNat, List.foldl_append]

theorem digitVal_digitChar {d : Nat} (h : d < 10) :
    digitVal (digitChar d) = d := by
  interval_cases d <;> rfl

theorem charsToNat_natChars : ∀ {f n : Nat}, n ≤ f →
    charsToNat (natChars f n) = n := by
  intro f
  induction f with
  | zero =>
    intro n h
    interval_cases n
    simp [natChars, charsToNat]
  | succ f ih =>
    intro n h
    cases n with
    | zero => simp [natChars, charsToNat]
    | succ n =>
      unfold natChars
      have hdiv : (n + 1) / 10 ≤ f := by
        have := Nat.div_lt_self (Nat.succ_pos n) (by omega : 1 < 10)
        omega
      rw [charsToNat_append_digit, ih hdiv,
        digitVal_digitChar (Nat.mod_lt _ (by omega))]
      exact Nat.div_add_mod (n + 1) 10

theorem natSuffix_inj {a b : Nat} (h : natSuffix a = natSuffix b) :
    a = b := by
  have hd : natChars a a = natChars b b := congrArg String.data h
  have := congrArg charsToNat hd
  rwa [charsToNat_natChars le_rfl, charsToNat_natChars le_rfl] at this

theorem natSuffix_ne_empty {n : Nat} (h : 1 ≤ n) : natSuffix n ≠ "" := by
  intro he
  exact natChars_ne_nil h h (congrArg String.data he)

theorem enumCandidate_data_ne_nil (table : TableMetadata)
    (f : FieldMetadata) : (enumCandidate table f).data ≠ [] := by
  intro h
  rw [enumCandidate, String.data_append, String.data_append] at h
  exact absurd (congrArg List.length (List.append_eq_nil.mp h).2) (by decide)

theorem getFieldEnumName_ne_empty (table : TableMetadata)
    (f : FieldMetadata) : getFieldEnumName table f ≠ "" := by
  simp only [getFieldEnumName]
  split
  · intro h
    exact enumCandidate_data_ne_nil table f (congrArg String.data h)
  · intro h
    have h2 := congrArg String.data h
    rw [String.data_append] at h2
    exact enumCandidate_data_ne_nil table f (List.append_eq_nil.mp h2).1

theorem str_ne_empty_of_head {s : String} {c : Char}
    (h : s.data.head? = some c) : s ≠ "" :=
  str_ne_of_head (by rw [h]; simp)

theorem choiceUnion_ne_empty {choices : List String}
    (h : choices ≠ []) : choiceUnion choices ≠ "" := by
  have h1 : ("\x27" : String).data.head? = some '\x27' := by decide
  cases choices with
  | nil => exact absurd rfl h
  | cons c cs =>
    cases cs with
    | nil =>
      refine str_ne_empty_of_head (c := '\x27') ?_
      simp only [choiceUnion, List.map_cons, List.map_nil, joinSep]
      exact str_head_left _ (str_head_left _ h1)
    | cons d ds =>
      refine str_ne_empty_of_head (c := '\x27') ?_
      simp only [choiceUnion, List.map_cons, joinSep]
      exact str_head_left _ (str_head_left _ (str_head_left _ h1))

/-! ### Claim C3: the single hard failure mode -/

/-- Every output of `cellFormatTs` is a non-empty type expression. -/
theorem cellFormatTs_ne_empty (t : String) : cellFormatTs t ≠ "" := by
  unfold cellFormatTs
  split <;> decide

set_option maxHeartbeats 4000000 in
/-- C3: for every field whose tag is outside the closed enumeration, both
dialect mappers fail with the unrecognized-field-type error whose message
carries the field's name and raw tag verbatim; for every tag inside the
enumeration, neither mapper reaches this failure. -/
theorem c3_unrecognized_tag :
    (∀ (table : TableMetadata) (f : FieldMetadata) (opts : TsOptions),
      f.type ∉ knownTags →
        getZodType table f = .error (unrecognizedMsg f) ∧
        getTsType f opts = .error (unrecognizedMsg f) ∧
        f.type.data <:+: (unrecognizedMsg f).data ∧
        f.name.data <:+: (unrecognizedMsg f).data) ∧
    (∀ (table : TableMetadata) (f : FieldMetadata) (opts : TsOptions),
      f.type ∈ knownTags →
        (∃ s, getZodType table f = .ok s) ∧
        (∃ s, getTsType f opts = .ok s)) := by
  constructor
  · intro table f opts h
    refine ⟨?_, ?_, ?_, ?_⟩
    · unfold getZodType
      split <;> simp_all [knownTags]
    · unfold getTsType
      split <;> simp_all [knownTags]
    · exact ⟨"Unrecognized field type: ".data,
        (" (on field \x27" ++ f.name ++ "\x27)").data,
        by simp [unrecognizedMsg, String.data_append]⟩
    · exact ⟨("Unrecognized field type: " ++ f.type ++
          " (on field \x27").data, "\x27)".data,
        by simp [unrecognizedMsg, String.data_append]⟩
  · intro table f opts h
    simp only [knownTags, List.mem_cons, List.not_mem_nil, or_false] at h
    obtain h|h|h|h|h|h|h|h|h|h|h|h|h|h|h|h|h|h|h|h|h|h|h|h|h|h|h|h|h|h|h|h|h := h <;>
      exact ⟨⟨_, by unfold getZodType; rw [h]; rfl⟩,
        ⟨_, by unfold getTsType; rw [h]; rfl⟩⟩

set_option maxHeartbeats 4000000 in
/-- Witness for C3 at a concrete unknown tag and a concrete known tag. -/
theorem c3_unrecognized_tag_witness :
    (getZodType sampleTable fldBad = .error (unrecognizedMsg fldBad) ∧
     getTsType fldBad ⟨false⟩ = .error (unrecognizedMsg fldBad) ∧
     fldBad.type.data <:+: (unrecognizedMsg fldBad).data ∧
     fldBad.name.data <:+: (unrecognizedMsg fldBad).data) ∧
    ((∃ s, getZodType sampleTable fldCheckbox = .ok s) ∧
     (∃ s, getTsType fldCheckbox ⟨false⟩ = .ok s)) :=
  ⟨c3_unrecognized_tag.1 sampleTable fldBad ⟨false⟩ (by decide),
   c3_unrecognized_tag.2 sampleTable fldCheckbox ⟨false⟩ (by decide)⟩

/-! ### Claim C9: computed fields prefer the declared result type -/

/-- C9: for every computed-derived field in the static-typing dialect, the
mapper emits the mapping of the declared derived result type when present,
and the default mapping of the field's own tag otherwise. -/
theorem c9_derived_result :
    ∀ (f : FieldMetadata) (opts : TsOptions),
      f.type ∈ ["createdTime", "formula", "lastModifiedTime",
        "multipleLookupValues", "rollup"] →
      (∀ r, f.resultType = some r →
        getTsType f opts = .ok (cellFormatTs r)) ∧
      (f.resultType = none →
        getTsType f opts = .ok (cellFormatTs f.type)) := by
  intro f opts h
  simp only [List.mem_cons, List.not_mem_nil, or_false] at h
  constructor
  · intro r hr
    obtain h|h|h|h|h := h <;> (unfold getTsType; rw [h]; simp [hr])
  · intro hr
    obtain h|h|h|h|h := h <;> (unfold getTsType; rw [h]; simp [hr])

set_option maxHeartbeats 4000000 in
/-- Witness for C9 at a formula field with and without a declared result
type. -/
theorem c9_derived_result_witness :
    getTsType fldFormula ⟨false⟩ = .ok (cellFormatTs "number") ∧
    getTsType fldFormulaNone ⟨false⟩ =
      .ok (cellFormatTs fldFormulaNone.type) :=
  ⟨(c9_derived_result fldFormula ⟨false⟩ (by decide)).1 "number" rfl,
   (c9_derived_result fldFormulaNone ⟨false⟩ (by decide)).2 rfl⟩

/-! ### Claim C4: numeric edge cases (corrected) -/

set_option maxHeartbeats 4000000 in
/-- C4 counterexample: the static-typing mapper emits the same plain
numeric type for a zero-precision and a two-decimal numeric field, so the
zero-precision case does not yield a positive-integer constraint distinct
from the general numeric constraint, contrary to the claim's "both dialect
mappers". -/
theorem c4_counterexample :
    getTsType fldNum0 ⟨false⟩ = getTsType fldNum2 ⟨false⟩ ∧
    getTsType fldNum0 ⟨false⟩ = .ok "number" := by
  constructor <;> decide

set_option maxHeartbeats 4000000 in
/-- C4 amended: in the schema-validator dialect, zero-precision
number/percent/currency fields map to the positive-integer validator,
other precisions to the positive-real validator, rating to the bounded
[0,5] validator and duration to the unconstrained numeric validator; the
static-typing mapper emits the numeric cell-format type for the whole
numeric family independent of precision. -/
theorem c4_numeric_mappings :
    (∀ (table : TableMetadata) (f : FieldMetadata),
      f.type ∈ ["number", "percent", "currency"] → f.precision = some 0 →
        getZodType table f = .ok "z.number().int().positive()") ∧
    (∀ (table : TableMetadata) (f : FieldMetadata),
      f.type ∈ ["number", "percent", "currency"] → f.precision ≠ some 0 →
        getZodType table f = .ok "z.number().positive()") ∧
    (∀ (table : TableMetadata) (f : FieldMetadata), f.type = "rating" →
        getZodType table f = .ok "z.number().min(0).max(5)") ∧
    (∀ (table : TableMetadata) (f : FieldMetadata), f.type = "duration" →
        getZodType table f = .ok "z.number()") ∧
    (∀ (f : FieldMetadata) (opts : TsOptions) (p₁ p₂ : Option Nat),
      f.type ∈ ["number", "percent", "currency", "rating", "duration"] →
        getTsType { f with precision := p₁ } opts =
          getTsType { f with precision := p₂ } opts) := by
  refine ⟨?_, ?_, ?_, ?_, ?_⟩
  · intro table f h hp
    simp only [List.mem_cons, List.not_mem_nil, or_false] at h
    obtain h|h|h := h <;> (unfold getZodType; rw [h]; simp [hp])
  · intro table f h hp
    simp only [List.mem_cons, List.not_mem_nil, or_false] at h
    obtain h|h|h := h <;>
      (unfold getZodType; rw [h];
       simp only [show (f.precision == some 0) = false by simpa using hp];
       rfl)
  · intro table f h
    unfold getZodType; rw [h]; rfl
  · intro table f h
    unfold getZodType; rw [h]; rfl
  · intro f opts p₁ p₂ h
    simp only [List.mem_cons, List.not_mem_nil, or_false] at h
    obtain h|h|h|h|h := h <;>
      (unfold getTsType;
       rw [show ({ f with precision := p₁ } : FieldMetadata).type = f.type
          from rfl,
         show ({ f with precision := p₂ } : FieldMetadata).type = f.type
          from rfl, h]; rfl)

set_option maxHeartbeats 4000000 in
/-- Witness for C4 at concrete zero- and two-precision fields. -/
theorem c4_numeric_mappings_witness :
    getZodType sampleTable fldNum0 = .ok "z.number().int().positive()" ∧
    getZodType sampleTable fldNum2 = .ok "z.number().positive()" ∧
    getTsType { fldNum2 with precision := some 0 } ⟨false⟩ =
      getTsType { fldNum2 with precision := some 2 } ⟨false⟩ :=
  ⟨c4_numeric_mappings.1 sampleTable fldNum0 (by decide) rfl,
   c4_numeric_mappings.2.1 sampleTable fldNum2 (by decide) (by decide),
   c4_numeric_mappings.2.2.2.2 fldNum2 ⟨false⟩ (some 0) (some 2)
     (by decide)⟩

/-! ### Claim C8: totality and non-emptiness of the mappers (corrected) -/

set_option maxHeartbeats 4000000 in
/-- C8 counterexample: a single-select field with an empty choice list is
inside the closed enumeration, yet the static-typing mapper returns the
empty string for it. -/
theorem c8_counterexample :
    fldSelectEmpty.type ∈ knownTags ∧
    getTsType fldSelectEmpty ⟨false⟩ = .ok "" :=
  ⟨by decide, rfl⟩

set_option maxHeartbeats 4000000 in
/-- C8 amended: for every tag in the closed enumeration both mappers
succeed, and — except for a single-select field with an empty choice list,
whose literal union is the empty string — return a non-empty type
expression; both mappers are pure functions, so two calls on identical
inputs are definitionally equal. -/
theorem c8_mapper_totality :
    ∀ (table : TableMetadata) (f : FieldMetadata) (opts : TsOptions),
      f.type ∈ knownTags → (f.type = "singleSelect" → f.choices ≠ []) →
      (∃ s, getZodType table f = .ok s ∧ s ≠ "") ∧
      (∃ s, getTsType f opts = .ok s ∧ s ≠ "") := by
  intro table f opts h hc
  simp only [knownTags, List.mem_cons, List.not_mem_nil, or_false] at h
  obtain h|h|h|h|h|h|h|h|h|h|h|h|h|h|h|h|h|h|h|h|h|h|h|h|h|h|h|h|h|h|h|h|h := h
  · exact ⟨⟨_, by unfold getZodType; rw [h]; rfl, by decide⟩,
      (by
        cases hlib : opts.useAirtableLibraryTypes <;>
          exact ⟨_, by unfold getTsType; rw [h]; rw [hlib]; rfl, by decide⟩)⟩
  · exact ⟨⟨_, by unfold getZodType; rw [h]; rfl, by decide⟩,
      ⟨_, by unfold getTsType; rw [h]; rfl, cellFormatTs_ne_empty _⟩⟩
  · exact ⟨⟨_, by unfold getZodType; rw [h]; rfl, by decide⟩,
      ⟨_, by unfold getTsType; rw [h]; rfl, cellFormatTs_ne_empty _⟩⟩
  · exact ⟨⟨_, by unfold getZodType; rw [h]; rfl, by decide⟩,
      (by
        cases hlib : opts.useAirtableLibraryTypes <;>
          exact ⟨_, by unfold getTsType; rw [h]; rw [hlib]; rfl, by decide⟩)⟩
  · exact ⟨⟨_, by unfold getZodType; rw [h]; rfl, by decide⟩,
      ⟨_, by unfold getTsType; rw [h]; rfl, cellFormatTs_ne_empty _⟩⟩
  · exact ⟨⟨_, by unfold getZodType; rw [h]; rfl, by decide⟩,
      ⟨_, by unfold getTsType; rw [h]; rfl, cellFormatTs_ne_empty _⟩⟩
  · exact ⟨⟨_, by unfold getZodType; rw [h]; rfl, by decide⟩,
      (by
        cases hlib : opts.useAirtableLibraryTypes <;>
          exact ⟨_, by unfold getTsType; rw [h]; rw [hlib]; rfl, by decide⟩)⟩
  · exact ⟨⟨_, by unfold getZodType; rw [h]; rfl, by decide⟩,
      ⟨_, by unfold getTsType; rw [h]; rfl, cellFormatTs_ne_empty _⟩⟩
  · exact ⟨(by
        cases hp : f.precision == some 0 <;>
          exact ⟨_, by unfold getZodType; rw [h]; rw [hp]; rfl, by decide⟩),
      ⟨_, by unfold getTsType; rw [h]; rfl, cellFormatTs_ne_empty _⟩⟩
  · exact ⟨⟨_, by unfold getZodType; rw [h]; rfl, by decide⟩,
      ⟨_, by unfold getTsType; rw [h]; rfl, cellFormatTs_ne_empty _⟩⟩
  · exact ⟨⟨_, by unfold getZodType; rw [h]; rfl, by decide⟩,
      ⟨_, by unfold getTsType; rw [h]; rfl, cellFormatTs_ne_empty _⟩⟩
  · exact ⟨⟨_, by unfold getZodType; rw [h]; rfl, by decide⟩,
      ⟨_, by unfold getTsType; rw [h]; rfl, cellFormatTs_ne_empty _⟩⟩
  · exact ⟨⟨_, by unfold getZodType; rw [h]; rfl, by decide⟩,
      ⟨_, by unfold getTsType; rw [h]; rfl, cellFormatTs_ne_empty _⟩⟩
  · exact ⟨⟨_, by unfold getZodType; rw [h]; rfl, by decide⟩,
      ⟨_, by unfold getTsType; rw [h]; rfl, cellFormatTs_ne_empty _⟩⟩
  · exact ⟨⟨_, by unfold getZodType; rw [h]; rfl, by decide⟩,
      ⟨_, by unfold getTsType; rw [h]; rfl, cellFormatTs_ne_empty _⟩⟩
  · exact ⟨⟨_, by unfold getZodType; rw [h]; rfl, by decide⟩,
      (by
        cases hlib : opts.useAirtableLibraryTypes <;>
          exact ⟨_, by unfold getTsType; rw [h]; rw [hlib]; rfl, by decide⟩)⟩
  · exact ⟨⟨_, by unfold getZodType; rw [h]; rfl, by decide⟩,
      ⟨_, by unfold getTsType; rw [h]; rfl, cellFormatTs_ne_empty _⟩⟩
  · exact ⟨⟨_, by unfold getZodType; rw [h]; rfl, by decide⟩,
      ⟨_, by unfold getTsType; rw [h]; rfl, cellFormatTs_ne_empty _⟩⟩
  · exact ⟨⟨_, by unfold getZodType; rw [h]; rfl, by decide⟩,
      (by
        cases hlib : opts.useAirtableLibraryTypes <;>
          exact ⟨_, by unfold getTsType; rw [h]; rw [hlib]; rfl, by decide⟩)⟩
  · exact ⟨⟨_, by unfold getZodType; rw [h]; rfl, by decide⟩,
      ⟨_, by unfold getTsType; rw [h]; rfl, cellFormatTs_ne_empty _⟩⟩
  · exact ⟨⟨_, by unfold getZodType; rw [h]; rfl, by decide⟩,
      ⟨_, by unfold getTsType; rw [h]; rfl, cellFormatTs_ne_empty _⟩⟩
  · exact ⟨⟨_, by unfold getZodType; rw [h]; rfl, by decide⟩,
      ⟨_, by unfold getTsType; rw [h]; rfl, cellFormatTs_ne_empty _⟩⟩
  · exact ⟨⟨_, by unfold getZodType; rw [h]; rfl,
        str_ne_empty_of_head (str_head_left _ (str_head_left _
          (show ("z.array(" : String).data.head? = some 'z' by decide)))⟩,
      ⟨_, by unfold getTsType; rw [h]; rfl,
        str_ne_empty_of_head (str_head_left _ (str_head_left _
          (show ("Array<" : String).data.head? = some 'A' by decide)))⟩⟩
  · exact ⟨(by
        cases hp : f.precision == some 0 <;>
          exact ⟨_, by unfold getZodType; rw [h]; rw [hp]; rfl, by decide⟩),
      ⟨_, by unfold getTsType; rw [h]; rfl, cellFormatTs_ne_empty _⟩⟩
  · exact ⟨(by
        cases hp : f.precision == some 0 <;>
          exact ⟨_, by unfold getZodType; rw [h]; rw [hp]; rfl, by decide⟩),
      ⟨_, by unfold getTsType; rw [h]; rfl, cellFormatTs_ne_empty _⟩⟩
  · exact ⟨⟨_, by unfold getZodType; rw [h]; rfl, by decide⟩,
      ⟨_, by unfold getTsType; rw [h]; rfl, cellFormatTs_ne_empty _⟩⟩
  · exact ⟨⟨_, by unfold getZodType; rw [h]; rfl, by decide⟩,
      ⟨_, by unfold getTsType; rw [h]; rfl, cellFormatTs_ne_empty _⟩⟩
  · exact ⟨⟨_, by unfold getZodType; rw [h]; rfl, by decide⟩,
      ⟨_, by unfold getTsType; rw [h]; rfl, cellFormatTs_ne_empty _⟩⟩
  · exact ⟨⟨_, by unfold getZodType; rw [h]; rfl, by decide⟩,
      ⟨_, by unfold getTsType; rw [h]; rfl, cellFormatTs_ne_empty _⟩⟩
  · exact ⟨⟨_, by unfold getZodType; rw [h]; rfl, by decide⟩,
      (by
        cases hlib : opts.useAirtableLibraryTypes <;>
          exact ⟨_, by unfold getTsType; rw [h]; rw [hlib]; rfl, by decide⟩)⟩
  · exact ⟨⟨_, by unfold getZodType; rw [h]; rfl, by decide⟩,
      ⟨_, by unfold getTsType; rw [h]; rfl, cellFormatTs_ne_empty _⟩⟩
  · exact ⟨⟨getFieldEnumName table f, by unfold getZodType; rw [h]; rfl,
        getFieldEnumName_ne_empty table f⟩,
      ⟨_, by unfold getTsType; rw [h]; rfl, choiceUnion_ne_empty (hc h)⟩⟩
  · exact ⟨⟨_, by unfold getZodType; rw [h]; rfl, by decide⟩,
      ⟨_, by unfold getTsType; rw [h]; rfl, cellFormatTs_ne_empty _⟩⟩

set_option maxHeartbeats 4000000 in
/-- Witness for C8 at a concrete two-choice select field. -/
theorem c8_mapper_totality_witness :
    (∃ s, getZodType sampleTable fldSelect = .ok s ∧ s ≠ "") ∧
    (∃ s, getTsType fldSelect ⟨false⟩ = .ok s ∧ s ≠ "") :=
  c8_mapper_totality sampleTable fldSelect ⟨false⟩ (by decide)
    (fun _ => by decide)

/-! ### Claim C1: reference-field resolution (corrected) -/

set_option maxHeartbeats 4000000 in
/-- C1 counterexample: in the schema-validator dialect a reference field
whose linked table is in the generation set still maps to the generic
string-collection validator, which does not mention the linked table's
synthesized identifier-type name at all — the dialect never consults the
table index. -/
theorem c1_counterexample :
    fldLink.linkedTableId = some linkTable.id ∧
    linkTable ∈ [sampleTable, linkTable] ∧
    getZodType sampleTable fldLink = .ok "z.array(z.string())" ∧
    ¬ ((pascalCase linkTable.name ++ "Id").data <:+:
        "z.array(z.string())".data) := by
  refine ⟨rfl, by decide, rfl, by decide⟩

set_option maxHeartbeats 4000000 in
/-- C1 amended: in the static-typing dialect with strong identifiers
requested, a reference field resolves to the linked table's synthesized
identifier-type name wrapped in a collection when the linked table is in
the generation set, and to the generic identifier fallback otherwise, never
fatally; with strong identifiers off it keeps the mapper's cell-format
type; in the schema-validator dialect reference fields always map to the
generic string-collection validator. -/
theorem c1_reference_resolution :
    (∀ (tables : List TableMetadata) (f : FieldMetadata)
        (t : TableMetadata),
      f.linkedTableId = some t.id → t ∈ tables →
      (∀ u ∈ tables, u.id = t.id → u = t) →
      resolveLinkedType tables f =
        "Array<" ++ (pascalCase t.name ++ "Id") ++ ">") ∧
    (∀ (tables : List TableMetadata) (f : FieldMetadata),
      (∀ u ∈ tables, f.linkedTableId ≠ some u.id) →
      resolveLinkedType tables f = "Array<AirtableUid>") ∧
    (∀ (tables : List TableMetadata) (f : FieldMetadata)
        (opts : TsOptions),
      f.type = "multipleRecordLinks" →
      tsFieldTypeResolved tables true f opts =
        .ok (resolveLinkedType tables f) ∧
      tsFieldTypeResolved tables false f opts =
        .ok (cellFormatTs f.type)) ∧
    (∀ (table : TableMetadata) (f : FieldMetadata),
      f.type = "multipleRecordLinks" →
      getZodType table f = .ok "z.array(z.string())") := by
  refine ⟨?_, ?_, ?_, ?_⟩
  · intro tables f t hid hmem huniq
    have hmemf : t ∈ tables.filter
        (fun u => f.linkedTableId == some u.id) :=
      List.mem_filter.mpr ⟨hmem, by simp [hid]⟩
    have hall : ∀ y ∈ (tables.filter
        (fun u => f.linkedTableId == some u.id)).map
        (fun u => pascalCase u.name ++ "Id"),
        y = pascalCase t.name ++ "Id" := by
      intro y hy
      rcases List.mem_map.mp hy with ⟨u, hu, rfl⟩
      have hu2 := List.mem_filter.mp hu
      have hids : u.id = t.id := by
        have := hu2.2
        rw [hid] at this
        exact (by simpa using this : t.id = u.id).symm
      rw [huniq u hu2.1 hids]
    have hne : (tables.filter
        (fun u => f.linkedTableId == some u.id)).map
        (fun u => pascalCase u.name ++ "Id") ≠ [] := by
      simp only [ne_eq, List.map_eq_nil_iff]
      exact List.ne_nil_of_mem hmemf
    unfold resolveLinkedType
    rw [getLast?_all_eq hne hall]
    rfl
  · intro tables f hnone
    unfold resolveLinkedType
    rw [List.filter_eq_nil_iff.mpr (fun u hu => by
      simpa using hnone u hu)]
    rfl
  · intro tables f opts h
    constructor
    · unfold tsFieldTypeResolved
      rw [show getTsType f opts = .ok (cellFormatTs f.type) from by
        unfold getTsType; rw [h]; rfl]
      simp [h]
    · unfold tsFieldTypeResolved
      rw [show getTsType f opts = .ok (cellFormatTs f.type) from by
        unfold getTsType; rw [h]; rfl]
      rfl
  · intro table f h
    unfold getZodType; rw [h]; rfl

set_option maxHeartbeats 4000000 in
/-- Witness for C1 at a concrete pair of tables with the linked table first
included and then excluded. -/
theorem c1_reference_resolution_witness :
    resolveLinkedType [sampleTable, linkTable] fldLink =
      "Array<" ++ (pascalCase linkTable.name ++ "Id") ++ ">" ∧
    resolveLinkedType [sampleTable] fldLink = "Array<AirtableUid>" ∧
    tsFieldTypeResolved [sampleTable, linkTable] true fldLink ⟨false⟩ =
      .ok (resolveLinkedType [sampleTable, linkTable] fldLink) ∧
    getZodType sampleTable fldLink = .ok "z.array(z.string())" :=
  ⟨c1_reference_resolution.1 [sampleTable, linkTable] fldLink linkTable rfl
      (by decide) (by decide),
   c1_reference_resolution.2.1 [sampleTable] fldLink (by decide),
   (c1_reference_resolution.2.2.1 [sampleTable, linkTable] fldLink
      ⟨false⟩ rfl).1,
   c1_reference_resolution.2.2.2 sampleTable fldLink rfl⟩

/-! ### Claim C2: readonly-ness decides the optionality marker -/

/-- A twelve-character bound transfer: the optionality suffix cannot end a
readonly Zod entry, whose tail is the field's validator followed by a bare
comma. -/
theorem zod_no_marker_of_parts {ft : String} (pre : String)
    (hlen : 11 ≤ ft.data.length)
    (hft : ¬ ((".optional()," : String).data <:+ ft.data ++ [','])) :
    ¬ ((".optional()," : String).data <:+ ((pre ++ ft) ++ ",").data) := by
  intro hsuf
  have h2 : (".optional()," : String).data <:+
      pre.data ++ (ft.data ++ [',']) := by
    simpa [String.data_append, List.append_assoc] using hsuf
  rw [suffix_append_iff_of_len pre.data (by
    have h12 : (".optional()," : String).data.length = 12 := by decide
    rw [h12, List.length_append]
    simp only [List.length_cons, List.length_nil]
    omega)] at h2
  exact hft h2

set_option maxHeartbeats 4000000 in
/-- C2: in both dialects, the generated per-field entry carries the
optionality marker exactly when the field is not classified readonly: the
Zod entry ends with the `.optional(),` suffix iff the field is editable,
and the TypeScript entry opens with the field name followed by the `?`
marker (the positional prefix distinguishing the two template branches,
for every field name and every type expression) iff the field is
editable. -/
theorem c2_optionality_markers :
    (∀ (table : TableMetadata) (f : FieldMetadata) (ft : String),
      getZodType table f = .ok ft →
      ((".optional()," : String).data <:+ (zodFieldLine f ft).data ↔
        isReadonlyField f = false)) ∧
    (∀ (f : FieldMetadata) (ft : String),
      ((("  \x27" ++ f.name ++ "\x27?").data <+:
        (tsFieldLineStr f ft).data) ↔
        isReadonlyField f = false)) := by
  constructor
  · intro table f ft h
    cases hb : isReadonlyField f with
    | false =>
      simp only [hb, iff_true]
      have hline : zodFieldLine f ft =
          (("  \x27" ++ f.name ++ "\x27: ") ++ ft) ++ ".optional()," := by
        unfold zodFieldLine
        rw [hb, if_neg (by simp)]
      rw [hline, String.data_append]
      exact List.suffix_append _ _
    | true =>
      simp only [hb, Bool.true_eq_false, iff_false]
      have hline : zodFieldLine f ft =
          (("  \x27" ++ f.name ++ "\x27: ") ++ ft) ++ "," := by
        unfold zodFieldLine
        rw [hb, if_pos rfl]
      rw [hline]
      simp only [isReadonlyField] at hb
      simp at hb
      obtain ht|ht|ht|ht|ht|ht|ht|ht|ht|ht := hb <;>
        (unfold getZodType at h; rw [ht] at h;
         simp only [Except.ok.injEq] at h; subst h;
         exact zod_no_marker_of_parts _ (by decide) (by decide))
  · intro f ft
    have hq : ("\x27?" : String).data = ['\x27', '?'] := rfl
    have hq2 : ("\x27" : String).data = ['\x27'] := rfl
    have hcand : ("  \x27" ++ f.name ++ "\x27?").data =
        "  \x27".data ++ (f.name.data ++ ('\x27' :: '?' :: [])) := by
      rw [String.data_append, String.data_append, hq, List.append_assoc]
    cases hb : isReadonlyField f with
    | false =>
      simp only [hb, iff_true]
      have hline : (tsFieldLineStr f ft).data =
          "  \x27".data ++ (f.name.data ++
            ('\x27' :: '?' :: (": ".data ++ ft.data))) := by
        unfold tsFieldLineStr
        rw [hb]
        simp only [Bool.false_eq_true, if_neg, ite_false]
        rw [String.data_append, String.data_append, String.data_append,
          String.data_append, hq2]
        simp [List.append_assoc]
      exact ⟨": ".data ++ ft.data, by
        rw [hcand, hline]
        simp [List.append_assoc]⟩
    | true =>
      simp only [hb, Bool.true_eq_false, iff_false]
      have hline : (tsFieldLineStr f ft).data =
          "  \x27".data ++ (f.name.data ++
            ('\x27' :: (": ".data ++ ft.data))) := by
        unfold tsFieldLineStr
        rw [hb]
        simp only [if_pos, ite_true]
        rw [String.data_append, String.data_append, String.data_append,
          String.data_append, hq2]
        simp [List.append_assoc]
      rintro ⟨t, ht⟩
      have hcolon : (": " : String).data = [':', ' '] := rfl
      rw [hcand, hline, List.append_assoc, hcolon] at ht
      have h2 := List.append_cancel_left ht
      rw [List.append_assoc] at h2
      have h3 := List.append_cancel_left h2
      simp at h3

set_option maxHeartbeats 4000000 in
/-- Witness for C2 at a concrete editable text field and a concrete
readonly formula field, in both dialects. -/
theorem c2_optionality_markers_witness :
    ((".optional()," : String).data <:+
      (zodFieldLine fldText "z.string()").data ↔
      isReadonlyField fldText = false) ∧
    ((".optional()," : String).data <:+
      (zodFieldLine fldFormulaNone "z.string().or(z.number())").data ↔
      isReadonlyField fldFormulaNone = false) ∧
    ((("  \x27" ++ fldText.name ++ "\x27?").data <+:
      (tsFieldLineStr fldText "string").data) ↔
      isReadonlyField fldText = false) ∧
    ((("  \x27" ++ fldFormulaNone.name ++ "\x27?").data <+:
      (tsFieldLineStr fldFormulaNone "string | number").data) ↔
      isReadonlyField fldFormulaNone = false) :=
  ⟨c2_optionality_markers.1 sampleTable fldText "z.string()" rfl,
   c2_optionality_markers.1 sampleTable fldFormulaNone
     "z.string().or(z.number())" rfl,
   c2_optionality_markers.2 fldText "string",
   c2_optionality_markers.2 fldFormulaNone "string | number"⟩

/-! ### Claim C6: allow-list resolution (corrected) -/

/-- C6 counterexample: with the duplicate allow-list `["A", "A"]` against a
base containing a table named `A`, every requested entry resolves to a
table, yet the run aborts — the code only compares the number of matched
tables with the number of requested entries. -/
theorem c6_counterexample :
    (∀ a ∈ ["A", "A"], ∃ t ∈ [tblA], t.id = a ∨ t.name = a) ∧
    selectTables (some ["A", "A"]) [tblA] =
      .error "Could not find all tables:\n\nRequested: A, A\nFound: A" :=
  ⟨by decide, by decide⟩

/-- C6 amended: with no allow-list every table is selected; with an
allow-list, selection succeeds exactly when the number of tables matching
some requested name or id equals the number of requested entries (in which
case the matched tables are returned in metadata order), and otherwise the
run aborts before generation with the error enumerating the requested
entries and the found tables.  With pairwise-distinct entries each matching
exactly one table this coincides with the original claim; duplicate entries
or one entry matching several tables break it. -/
theorem c6_table_selection :
    (∀ tables, selectTables none tables = .ok tables) ∧
    (∀ (al : List String) (tables sel : List TableMetadata),
      sel = tables.filter
        (fun t => al.contains t.id || al.contains t.name) →
      (∀ l, selectTables (some al) tables = .ok l ↔
        (l = sel ∧ sel.length = al.length)) ∧
      (sel.length ≠ al.length →
        selectTables (some al) tables = .error (selectErrMsg al sel))) := by
  constructor
  · intro tables; rfl
  · intro al tables sel hsel
    subst hsel
    constructor
    · intro l
      simp only [selectTables]
      by_cases hlen : (tables.filter
          (fun t => al.contains t.id || al.contains t.name)).length =
          al.length
      · rw [if_neg (by simpa using hlen)]
        constructor
        · intro h
          exact ⟨(Except.ok.inj h).symm, hlen⟩
        · rintro ⟨rfl, -⟩
          rfl
      · rw [if_pos (by simpa using hlen)]
        constructor
        · intro h
          exact absurd h (by simp)
        · rintro ⟨-, hlen2⟩
          exact absurd hlen2 hlen
    · intro hlen
      simp only [selectTables]
      rw [if_pos (by simpa using hlen)]

/-- Witness for C6: a fully resolvable distinct allow-list succeeds with
the matched tables; a missing name aborts with the enumerating error. -/
theorem c6_table_selection_witness :
    selectTables (some ["My Table", "tbl2"]) [sampleTable, linkTable] =
      .ok ([sampleTable, linkTable].filter
        (fun t => ["My Table", "tbl2"].contains t.id ||
          ["My Table", "tbl2"].contains t.name)) ∧
    selectTables (some ["Nope"]) [sampleTable] =
      .error (selectErrMsg ["Nope"] ([sampleTable].filter
        (fun t => ["Nope"].contains t.id || ["Nope"].contains t.name))) ∧
    selectTables none [linkTable] = .ok [linkTable] :=
  ⟨((c6_table_selection.2 ["My Table", "tbl2"] [sampleTable, linkTable] _
      rfl).1 _).mpr ⟨rfl, by decide⟩,
   (c6_table_selection.2 ["Nope"] [sampleTable] _ rfl).2 (by decide),
   c6_table_selection.1 [linkTable]⟩


/-! ### Claim C7: enum-name disambiguation -/

/-- With unique field ids, the id-bounded `takeWhile` inside the enum-name
resolver is exactly the positional prefix of the field list. -/
theorem takeWhile_id_eq_take :
    ∀ (l : List FieldMetadata) (i : Nat) (hi : i < l.length),
      ((l.map (fun f => f.id)).Nodup) →
      l.takeWhile (fun g => g.id != (l.get ⟨i, hi⟩).id) = l.take i := by
  intro l
  induction l with
  | nil => intro i hi; simp at hi
  | cons x xs ih =>
    intro i hi hnd
    simp only [List.map_cons, List.nodup_cons] at hnd
    cases i with
    | zero =>
      simp only [List.get, List.take_zero]
      rw [List.takeWhile_cons]
      simp
    | succ i =>
      have hi2 : i < xs.length := by simpa using hi
      have hget : (x :: xs).get ⟨i + 1, hi⟩ = xs.get ⟨i, hi2⟩ := rfl
      rw [hget, List.takeWhile_cons]
      have hmem : (xs.get ⟨i, hi2⟩).id ∈ xs.map (fun f => f.id) :=
        List.mem_map.mpr ⟨xs.get ⟨i, hi2⟩, List.get_mem xs i hi2, rfl⟩
      have hxne : x.id ≠ (xs.get ⟨i, hi2⟩).id := by
        intro he
        exact hnd.1 (he ▸ hmem)
      rw [if_pos (by simpa using hxne), List.take_succ_cons]
      rw [ih i hi2 hnd.2]

/-- Closed form of the resolver: the bare candidate for a first-seen
field, the candidate plus the numeral of the collision ordinal otherwise. -/
theorem getFieldEnumName_formula (table : TableMetadata) (m : Nat)
    (hm : m < table.fields.length)
    (hnd : (table.fields.map (fun f => f.id)).Nodup) :
    getFieldEnumName table (table.fields.get ⟨m, hm⟩) =
      (if priorSame table m (table.fields.get ⟨m, hm⟩) = 0
       then enumCandidate table (table.fields.get ⟨m, hm⟩)
       else enumCandidate table (table.fields.get ⟨m, hm⟩) ++
         natSuffix (priorSame table m (table.fields.get ⟨m, hm⟩) + 1)) := by
  simp only [getFieldEnumName, priorSame]
  rw [takeWhile_id_eq_take _ m hm hnd]

/-- A string differs from itself extended by a non-empty suffix. -/
theorem str_ne_append_right {s t : String} (h : s ≠ "") : t ≠ t ++ s := by
  intro he
  have hd := congrArg String.data he
  rw [String.data_append] at hd
  have h0 : s.data = [] := (List.self_eq_append_right.mp hd)
  exact h (by
    cases s with
    | mk d =>
      have hd2 : d = [] := by simpa using h0
      subst hd2
      rfl)

/-- Appending on the left is cancellative for strings. -/
theorem str_append_left_cancel {t s₁ s₂ : String} (h : t ++ s₁ = t ++ s₂) :
    s₁ = s₂ := by
  have hd := congrArg String.data h
  rw [String.data_append, String.data_append] at hd
  have h2 := List.append_cancel_left hd
  cases s₁ with
  | mk d₁ =>
    cases s₂ with
    | mk d₂ =>
      have h3 : d₁ = d₂ := h2
      rw [h3]

set_option maxHeartbeats 2000000 in
/-- C7: for two select fields of one table with identical display names
(unique field ids, the first one first-seen for its candidate), the
resolver gives the first field the bare candidate, gives the later field
the candidate with a numeric suffix of ordinal at least two, the two names
are distinct, and any still later select field with the same display name
gets yet another distinct suffixed name, in first-seen order. -/
theorem c7_enum_disambiguation :
    ∀ (table : TableMetadata) (i j : Nat) (hi : i < table.fields.length)
      (hj : j < table.fields.length), i < j →
      (table.fields.map (fun f => f.id)).Nodup →
      isSelectTag (table.fields.get ⟨i, hi⟩).type = true →
      isSelectTag (table.fields.get ⟨j, hj⟩).type = true →
      (table.fields.get ⟨i, hi⟩).name = (table.fields.get ⟨j, hj⟩).name →
      (∀ g ∈ table.fields.take i, ¬(isSelectTag g.type = true ∧
        enumCandidate table g =
          enumCandidate table (table.fields.get ⟨i, hi⟩))) →
      getFieldEnumName table (table.fields.get ⟨i, hi⟩) =
        enumCandidate table (table.fields.get ⟨i, hi⟩) ∧
      (∃ n, 2 ≤ n ∧ getFieldEnumName table (table.fields.get ⟨j, hj⟩) =
        enumCandidate table (table.fields.get ⟨i, hi⟩) ++ natSuffix n) ∧
      getFieldEnumName table (table.fields.get ⟨i, hi⟩) ≠
        getFieldEnumName table (table.fields.get ⟨j, hj⟩) ∧
      (∀ (k : Nat) (hk : k < table.fields.length), j < k →
        isSelectTag (table.fields.get ⟨k, hk⟩).type = true →
        (table.fields.get ⟨k, hk⟩).name =
          (table.fields.get ⟨i, hi⟩).name →
        getFieldEnumName table (table.fields.get ⟨j, hj⟩) ≠
          getFieldEnumName table (table.fields.get ⟨k, hk⟩)) := by
  intro table i j hi hj hij hnd hseli hselj hname hfirst
  have hcandj : enumCandidate table (table.fields.get ⟨j, hj⟩) =
      enumCandidate table (table.fields.get ⟨i, hi⟩) := by
    unfold enumCandidate
    rw [hname]
  have hpi : priorSame table i (table.fields.get ⟨i, hi⟩) = 0 := by
    unfold priorSame
    rw [List.filter_eq_nil_iff.mpr ?_]
    · rfl
    · intro g hg
      have hng := hfirst g hg
      simp only [Bool.and_eq_true, beq_iff_eq, not_and] at hng ⊢
      intro hsg hcg
      exact hng hsg hcg
  have hni : getFieldEnumName table (table.fields.get ⟨i, hi⟩) =
      enumCandidate table (table.fields.get ⟨i, hi⟩) := by
    rw [getFieldEnumName_formula table i hi hnd, hpi]
    rfl
  have hmemtake : ∀ (m : Nat), i < m →
      (table.fields.get ⟨i, hi⟩) ∈ table.fields.take m := by
    intro m him
    have hlen : i < (table.fields.take m).length := by
      rw [List.length_take]
      omega
    have heq : (table.fields.take m).get ⟨i, hlen⟩ =
        table.fields.get ⟨i, hi⟩ := by
      simp [List.getElem_take]
    rw [← heq]
    exact List.get_mem _ i hlen
  have hp_fi : (fun g => isSelectTag g.type &&
      (enumCandidate table g ==
        enumCandidate table (table.fields.get ⟨i, hi⟩)))
        (table.fields.get ⟨i, hi⟩) = true := by
    simp only [Bool.and_eq_true, beq_iff_eq]
    exact ⟨hseli, trivial⟩
  have hpos : ∀ (m : Nat), i < m →
      1 ≤ priorSame table m (table.fields.get ⟨i, hi⟩) := by
    intro m him
    unfold priorSame
    have hmem : (table.fields.get ⟨i, hi⟩) ∈
        (table.fields.take m).filter (fun g => isSelectTag g.type &&
        (enumCandidate table g ==
          enumCandidate table (table.fields.get ⟨i, hi⟩))) :=
      List.mem_filter.mpr ⟨hmemtake m him, hp_fi⟩
    have hne := List.ne_nil_of_mem hmem
    have hlp := List.length_pos.mpr hne
    omega
  have hnje2 : getFieldEnumName table (table.fields.get ⟨j, hj⟩) =
      enumCandidate table (table.fields.get ⟨i, hi⟩) ++
        natSuffix (priorSame table j (table.fields.get ⟨i, hi⟩) + 1) := by
    rw [getFieldEnumName_formula table j hj hnd]
    rw [show priorSame table j (table.fields.get ⟨j, hj⟩) =
        priorSame table j (table.fields.get ⟨i, hi⟩) from by
      unfold priorSame
      rw [hcandj]]
    have hpj := hpos j hij
    rw [if_neg (by omega), hcandj]
  have hnj : ∃ n, 2 ≤ n ∧
      getFieldEnumName table (table.fields.get ⟨j, hj⟩) =
      enumCandidate table (table.fields.get ⟨i, hi⟩) ++ natSuffix n := by
    have hpj := hpos j hij
    exact ⟨priorSame table j (table.fields.get ⟨i, hi⟩) + 1, by omega,
      hnje2⟩
  refine ⟨hni, hnj, ?_, ?_⟩
  · obtain ⟨n, hn2, hn⟩ := hnj
    rw [hni, hn]
    exact str_ne_append_right (natSuffix_ne_empty (by omega))
  · intro k hk hjk hselk hnamek
    have hcandk : enumCandidate table (table.fields.get ⟨k, hk⟩) =
        enumCandidate table (table.fields.get ⟨i, hi⟩) := by
      unfold enumCandidate
      rw [hnamek]
    have hstep : priorSame table j (table.fields.get ⟨i, hi⟩) <
        priorSame table k (table.fields.get ⟨i, hi⟩) := by
      unfold priorSame
      have hsub : List.Sublist
          ((table.fields.take (j + 1)).filter (fun g =>
          isSelectTag g.type && (enumCandidate table g ==
            enumCandidate table (table.fields.get ⟨i, hi⟩))))
          ((table.fields.take k).filter (fun g =>
          isSelectTag g.type && (enumCandidate table g ==
            enumCandidate table (table.fields.get ⟨i, hi⟩)))) := by
        refine List.Sublist.filter _ ?_
        exact (List.take_prefix_take_left table.fields
          (by omega : j + 1 ≤ k)).sublist
      have htsucc : table.fields.take (j + 1) =
          table.fields.take j ++ [table.fields.get ⟨j, hj⟩] := by
        rw [List.take_succ]
        simp [List.getElem?_eq_getElem hj]
      have hfj : (table.fields.take (j + 1)).filter (fun g =>
          isSelectTag g.type && (enumCandidate table g ==
            enumCandidate table (table.fields.get ⟨i, hi⟩))) =
          (table.fields.take j).filter (fun g =>
          isSelectTag g.type && (enumCandidate table g ==
            enumCandidate table (table.fields.get ⟨i, hi⟩))) ++
          [table.fields.get ⟨j, hj⟩] := by
        rw [htsucc, List.filter_append]
        congr 1
        rw [List.filter_cons]
        rw [if_pos (by simp only [Bool.and_eq_true, beq_iff_eq]
                       exact ⟨hselj, hcandj⟩)]
        rfl
      have hlen1 := List.Sublist.length_le hsub
      rw [hfj, List.length_append] at hlen1
      simp only [List.length_singleton] at hlen1
      omega
    have hnk : getFieldEnumName table (table.fields.get ⟨k, hk⟩) =
        enumCandidate table (table.fields.get ⟨i, hi⟩) ++
          natSuffix (priorSame table k (table.fields.get ⟨i, hi⟩) + 1) := by
      rw [getFieldEnumName_formula table k hk hnd]
      rw [show priorSame table k (table.fields.get ⟨k, hk⟩) =
          priorSame table k (table.fields.get ⟨i, hi⟩) from by
        unfold priorSame
        rw [hcandk]]
      have hpk := hpos k (by omega)
      rw [if_neg (by omega), hcandk]
    intro he
    rw [hnk, hnje2] at he
    have hcc := natSuffix_inj (str_append_left_cancel he)
    omega


/-- Witness for C7 on a concrete table with two identically named select
fields. -/
theorem c7_enum_disambiguation_witness :
    getFieldEnumName dupTable (dupTable.fields.get ⟨0, by decide⟩) =
      enumCandidate dupTable (dupTable.fields.get ⟨0, by decide⟩) ∧
    (∃ n, 2 ≤ n ∧
      getFieldEnumName dupTable (dupTable.fields.get ⟨1, by decide⟩) =
        enumCandidate dupTable (dupTable.fields.get ⟨0, by decide⟩) ++
          natSuffix n) ∧
    getFieldEnumName dupTable (dupTable.fields.get ⟨0, by decide⟩) ≠
      getFieldEnumName dupTable (dupTable.fields.get ⟨1, by decide⟩) ∧
    (∀ (k : Nat) (hk : k < dupTable.fields.length), 1 < k →
      isSelectTag (dupTable.fields.get ⟨k, hk⟩).type = true →
      (dupTable.fields.get ⟨k, hk⟩).name =
        (dupTable.fields.get ⟨0, by decide⟩).name →
      getFieldEnumName dupTable (dupTable.fields.get ⟨1, by decide⟩) ≠
        getFieldEnumName dupTable (dupTable.fields.get ⟨k, hk⟩)) :=
  c7_enum_disambiguation dupTable 0 1 (by decide) (by decide) (by decide)
    (by decide) (by decide) (by decide) (by decide) (by decide)

/-! ### Claim C10: the attachment shared shape is never declared (code bug) -/

set_option maxHeartbeats 4000000 in
set_option maxRecDepth 10000 in
/-- C10 demonstration: for a run whose only field is an attachment field,
the assembled Zod output references `AirtableAttachmentSchema` in the
field's validator, but no declaration of that identifier is emitted — the
template pushed into the preamble declares `AirtableThumbnailSchema`
instead, so the output's shared-shape reference is undefined. -/
theorem c10_attachment_schema_bug :
    ∃ out, generateZodSchemas [attachOnlyTable] = .ok out ∧
      ("AirtableAttachmentSchema".data <:+: out.data) ∧
      ¬ (("export const AirtableAttachmentSchema").data <:+: out.data) ∧
      ("export const AirtableThumbnailSchema".data <:+: out.data) :=
  ⟨_, rfl, by decide, by decide, by decide⟩

/-! ### Claim C5: shared-shape emission (corrected) -/

/-- Last character of the attachment Zod template. -/
theorem attTmpl_last : AttachmentZodTmpl.data.getLast? = some ')' := by decide
/-- Last character of the collaborator Zod template. -/
theorem collTmpl_last : CollaboratorZodTmpl.data.getLast? = some ')' := by decide
/-- First character of the attachment Zod template. -/
theorem attTmpl_head : AttachmentZodTmpl.data.head? = some 'e' := by decide
/-- First character of the collaborator Zod template. -/
theorem collTmpl_head : CollaboratorZodTmpl.data.head? = some 'e' := by decide
/-- Last character of the attachment TypeScript shape block. -/
theorem attExtra_last : tsAttachmentExtra.data.getLast? = some ' ' := by decide
/-- Last character of the collaborator TypeScript shape block. -/
theorem collExtra_last : tsCollaboratorExtra.data.getLast? = some ' ' := by decide
/-- First character of the attachment TypeScript shape block. -/
theorem attExtra_head : tsAttachmentExtra.data.head? = some '\n' := by decide
/-- First character of the collaborator TypeScript shape block. -/
theorem collExtra_head : tsCollaboratorExtra.data.head? = some '\n' := by decide

/-- A line whose last character is not a closing parenthesis is neither Zod
shared-shape template. -/
theorem ne_zodTmpls_of_last {s : String} {c : Char}
    (h : s.data.getLast? = some c) (hc : c ≠ ')') :
    s ≠ AttachmentZodTmpl ∧ s ≠ CollaboratorZodTmpl :=
  ⟨str_ne_of_last (by rw [h, attTmpl_last]; simp [hc]),
   str_ne_of_last (by rw [h, collTmpl_last]; simp [hc])⟩

/-- A line whose first character is not an `e` is neither Zod shared-shape
template. -/
theorem ne_zodTmpls_of_head {s : String} {c : Char}
    (h : s.data.head? = some c) (hc : c ≠ 'e') :
    s ≠ AttachmentZodTmpl ∧ s ≠ CollaboratorZodTmpl :=
  ⟨str_ne_of_head (by rw [h, attTmpl_head]; simp [hc]),
   str_ne_of_head (by rw [h, collTmpl_head]; simp [hc])⟩

/-- A line whose last character is not a space is neither TypeScript
shared-shape block. -/
theorem ne_tsExtras_of_last {s : String} {c : Char}
    (h : s.data.getLast? = some c) (hc : c ≠ ' ') :
    s ≠ tsAttachmentExtra ∧ s ≠ tsCollaboratorExtra :=
  ⟨str_ne_of_last (by rw [h, attExtra_last]; simp [hc]),
   str_ne_of_last (by rw [h, collExtra_last]; simp [hc])⟩

/-- A line whose first character is not a newline is neither TypeScript
shared-shape block. -/
theorem ne_tsExtras_of_head {s : String} {c : Char}
    (h : s.data.head? = some c) (hc : c ≠ '\n') :
    s ≠ tsAttachmentExtra ∧ s ≠ tsCollaboratorExtra :=
  ⟨str_ne_of_head (by rw [h, attExtra_head]; simp [hc]),
   str_ne_of_head (by rw [h, collExtra_head]; simp [hc])⟩

set_option maxHeartbeats 2000000 in
/-- No line of a per-table Zod block coincides with a shared-shape
template. -/
theorem zod_block_line_ne (table : TableMetadata) (bl : List String)
    (h : zodTableBlock table = .ok bl) :
    ∀ l ∈ bl, l ≠ AttachmentZodTmpl ∧ l ≠ CollaboratorZodTmpl := by
  unfold zodTableBlock at h
  split at h
  · simp at h
  · rename_i fieldLines hmap
    simp only [Except.ok.injEq] at h
    subst h
    intro l hl
    rcases List.mem_append.mp hl with hl1 | hl4
    rotate_left
    · -- closing lines
      simp only [List.mem_cons, List.not_mem_nil, or_false] at hl4
      rcases hl4 with hl4 | hl4 | hl4
      · subst hl4; exact ⟨by decide, by decide⟩
      · subst hl4
        exact ne_zodTmpls_of_last (str_last_right _
          (show ("Schema>" : String).data.getLast? = some '>' by decide))
          (by decide)
      · subst hl4; exact ⟨by decide, by decide⟩
    rcases List.mem_append.mp hl1 with hl2 | hl3
    rotate_left
    · -- per-field entries
      rcases exceptMapM_ok_mem hmap l hl3 with ⟨f, hf, hok⟩
      cases hz : getZodType table f with
      | error e => rw [hz] at hok; simp at hok
      | ok ft =>
        rw [hz] at hok
        simp only [Except.ok.injEq] at hok
        subst hok
        have hh : (zodFieldLine f ft).data.head? = some ' ' := by
          unfold zodFieldLine
          exact str_head_left _ (str_head_left _ (str_head_left _
            (show ("  \x27" : String).data.head? = some ' ' by decide)))
        exact ne_zodTmpls_of_head hh (by decide)
    rcases List.mem_append.mp hl2 with ha | hb
    rotate_left
    · -- the object header
      simp only [List.mem_singleton] at hb
      subst hb
      exact ne_zodTmpls_of_last (str_last_right _
        (show ("Schema = z.object(\x7b" : String).data.getLast? =
          some '\x7b' by decide)) (by decide)
    · -- enum declaration lines
      rcases List.mem_flatten.mp ha with ⟨b, hb2, hlb⟩
      rcases List.mem_map.mp hb2 with ⟨f, hf, rfl⟩
      unfold zodEnumBlock at hlb
      by_cases hsel : (f.type == "singleSelect" ||
          f.type == "multipleSelects") = true
      · rw [if_pos hsel] at hlb
        rcases List.mem_append.mp hlb with hx | hy
        · rcases List.mem_append.mp hx with hx1 | hx2
          · simp only [List.mem_singleton] at hx1
            subst hx1
            exact ne_zodTmpls_of_last (str_last_right _
              (show (" = z.enum([" : String).data.getLast? = some '['
                by decide)) (by decide)
          · rcases List.mem_map.mp hx2 with ⟨ch, hch, rfl⟩
            exact ne_zodTmpls_of_head (str_head_left _ (str_head_left _
              (show ("  \x27" : String).data.head? = some ' ' by decide)))
              (by decide)
        · simp only [List.mem_cons, List.not_mem_nil, or_false] at hy
          rcases hy with hy | hy
          · subst hy; exact ⟨by decide, by decide⟩
          · subst hy; exact ⟨by decide, by decide⟩
      · rw [if_neg hsel] at hlb
        simp at hlb

/-- A string absent from a list has count zero. -/
theorem count_eq_zero_of_forall_ne {ls : List String} {a : String}
    (h : ∀ l ∈ ls, l ≠ a) : ls.count a = 0 :=
  List.count_eq_zero.mpr (fun hmem => h a hmem rfl)

set_option maxHeartbeats 1000000 in
/-- The Zod preamble holds each shared-shape template exactly once when the
corresponding category occurs among the selected fields, zero times
otherwise. -/
theorem zodPreamble_counts (tables : List TableMetadata) :
    (zodPreamble tables).count AttachmentZodTmpl =
      (if hasAttachmentField ((tables.map (fun t => t.fields)).flatten)
       then 1 else 0) ∧
    (zodPreamble tables).count CollaboratorZodTmpl =
      (if hasCollaboratorField ((tables.map (fun t => t.fields)).flatten)
       then 1 else 0) := by
  unfold zodPreamble
  cases hA : hasAttachmentField ((tables.map (fun t => t.fields)).flatten) <;>
    cases hC : hasCollaboratorField
        ((tables.map (fun t => t.fields)).flatten) <;>
    simp only [if_true, if_false, Bool.false_eq_true] <;>
    exact ⟨by decide, by decide⟩

set_option maxHeartbeats 2000000 in
/-- Shared-shape emission in the Zod dialect: the output is the preamble
followed by the per-table blocks, the templates never occur inside the
blocks, and each template occurs in the whole output exactly once iff its
category occurs among the selected fields. -/
theorem zod_shared_emission :
    ∀ (tables : List TableMetadata) (ls : List String),
      generateZodLines tables = .ok ls →
      ∃ blocks, exceptMapM zodTableBlock tables = .ok blocks ∧
        ls = zodPreamble tables ++ blocks.flatten ∧
        blocks.flatten.count AttachmentZodTmpl = 0 ∧
        blocks.flatten.count CollaboratorZodTmpl = 0 ∧
        ls.count AttachmentZodTmpl =
          (if hasAttachmentField ((tables.map (fun t => t.fields)).flatten)
           then 1 else 0) ∧
        ls.count CollaboratorZodTmpl =
          (if hasCollaboratorField ((tables.map (fun t => t.fields)).flatten)
           then 1 else 0) := by
  intro tables ls h
  unfold generateZodLines at h
  split at h
  · simp at h
  · rename_i blocks hmap
    simp only [Except.ok.injEq] at h
    subst h
    have hz : ∀ l ∈ blocks.flatten,
        l ≠ AttachmentZodTmpl ∧ l ≠ CollaboratorZodTmpl := by
      intro l hl
      rcases List.mem_flatten.mp hl with ⟨b, hb, hlb⟩
      rcases exceptMapM_ok_mem hmap b hb with ⟨t, ht, hok⟩
      exact zod_block_line_ne t b hok l hlb
    have h0a : blocks.flatten.count AttachmentZodTmpl = 0 :=
      count_eq_zero_of_forall_ne (fun l hl => (hz l hl).1)
    have h0c : blocks.flatten.count CollaboratorZodTmpl = 0 :=
      count_eq_zero_of_forall_ne (fun l hl => (hz l hl).2)
    refine ⟨blocks, hmap, rfl, h0a, h0c, ?_, ?_⟩
    · rw [List.count_append, h0a, (zodPreamble_counts tables).1]
      omega
    · rw [List.count_append, h0c, (zodPreamble_counts tables).2]
      omega

set_option maxHeartbeats 2000000 in
/-- No line of a per-table TypeScript block coincides with a shared-shape
block. -/
theorem ts_block_line_ne (flags : TsFlags) (tables : List TableMetadata)
    (table : TableMetadata) (bl : List String)
    (h : tsTableBlock flags tables table = .ok bl) :
    ∀ l ∈ bl, l ≠ tsAttachmentExtra ∧ l ≠ tsCollaboratorExtra := by
  unfold tsTableBlock at h
  split at h
  · simp at h
  · rename_i fieldLines hmap
    simp only [Except.ok.injEq] at h
    subst h
    intro l hl
    rcases List.mem_append.mp hl with hl1 | hl4
    rotate_left
    · simp only [List.mem_cons, List.not_mem_nil, or_false] at hl4
      rcases hl4 with hl4 | hl4
      · subst hl4; exact ⟨by decide, by decide⟩
      · subst hl4; exact ⟨by decide, by decide⟩
    rcases List.mem_append.mp hl1 with hl2 | hl3
    rotate_left
    · -- per-field entries
      rcases exceptMapM_ok_mem hmap l hl3 with ⟨f, hf, hok⟩
      split at hok
      · simp at hok
      · rename_i ft heq
        simp only [Except.ok.injEq] at hok
        subst hok
        have hh : (tsFieldLineStr f ft).data.head? = some ' ' := by
          unfold tsFieldLineStr
          exact str_head_left _ (str_head_left _ (str_head_left _
            (str_head_left _
              (show ("  \x27" : String).data.head? = some ' ' by decide))))
        exact ne_tsExtras_of_head hh (by decide)
    · -- the five fixed-shape header lines
      simp only [List.mem_cons, List.not_mem_nil, or_false] at hl2
      rcases hl2 with hl2 | hl2 | hl2 | hl2 | hl2
      · subst hl2; exact ⟨by decide, by decide⟩
      · subst hl2
        exact ne_tsExtras_of_last (str_last_right _
          (show ("Id = AirtableUid;" : String).data.getLast? = some ';'
            by decide)) (by decide)
      · subst hl2; exact ⟨by decide, by decide⟩
      · subst hl2
        exact ne_tsExtras_of_last (str_last_right _
          (show (" \x7b" : String).data.getLast? = some '\x7b' by decide))
          (by decide)
      · subst hl2
        exact ne_tsExtras_of_head (str_head_left _
          (show ("  _id?: " : String).data.head? = some ' ' by decide))
          (by decide)

set_option maxHeartbeats 1000000 in
/-- No line of the aggregate-access scaffold coincides with a shared-shape
block. -/
theorem ts_scaffold_line_ne (controllers : Bool) (base : BaseMetadata)
    (tables : List TableMetadata) :
    ∀ l ∈ tsScaffold controllers base tables,
      l ≠ tsAttachmentExtra ∧ l ≠ tsCollaboratorExtra := by
  intro l hl
  unfold tsScaffold at hl
  cases controllers with
  | false => simp at hl
  | true =>
    rw [if_pos rfl] at hl
    rcases List.mem_append.mp hl with hl1 | hl3
    rotate_left
    · simp only [List.mem_cons, List.not_mem_nil, or_false] at hl3
      rcases hl3 with hl3 | hl3
      · subst hl3; exact ⟨by decide, by decide⟩
      · subst hl3; exact ⟨by decide, by decide⟩
    rcases List.mem_append.mp hl1 with hl2 | hacc
    rotate_left
    · rcases List.mem_map.mp hacc with ⟨t, ht, rfl⟩
      have hh : (tsAccessorLine t).data.head? = some ' ' := by
        unfold tsAccessorLine
        exact str_head_left _ (str_head_left _ (str_head_left _
          (str_head_left _ (str_head_left _ (str_head_left _
            (str_head_left _ (str_head_left _ (str_head_left _
              (show ("  get" : String).data.head? = some ' '
                by decide)))))))))
      exact ne_tsExtras_of_head hh (by decide)
    · simp only [List.mem_cons, List.not_mem_nil, or_false] at hl2
      rcases hl2 with hl2 | hl2
      · subst hl2
        have hh : (tsClassTemplate base).data.getLast? = some '\x7d' := by
          unfold tsClassTemplate
          exact str_last_right _
            (show ("._id);\n  \x7d" : String).data.getLast? = some '\x7d'
              by decide)
        exact ne_tsExtras_of_last hh (by decide)
      · subst hl2; exact ⟨by decide, by decide⟩

set_option maxHeartbeats 1000000 in
set_option maxRecDepth 10000 in
/-- The TypeScript preamble holds each shared shape once per needed
category without the controllers flag, and never with it (the library
module import replaces them). -/
theorem tsPreamble_counts (allFields : List FieldMetadata) :
    ((tsPreamble false allFields).count tsAttachmentExtra =
      (if hasAttachmentField allFields then 1 else 0) ∧
     (tsPreamble false allFields).count tsCollaboratorExtra =
      (if hasCollaboratorField allFields then 1 else 0)) ∧
    ((tsPreamble true allFields).count tsAttachmentExtra = 0 ∧
     (tsPreamble true allFields).count tsCollaboratorExtra = 0) := by
  constructor
  · unfold tsPreamble
    cases hA : hasAttachmentField allFields <;>
      cases hC : hasCollaboratorField allFields <;>
      simp only [if_true, if_false, Bool.false_eq_true] <;>
      exact ⟨by decide, by decide⟩
  · constructor <;> (unfold tsPreamble; rw [if_pos rfl]; decide)

set_option maxHeartbeats 2000000 in
/-- Shared-shape emission in the TypeScript dialect: preamble, then blocks,
then scaffold; the shape blocks never occur outside the preamble, occur
exactly once per needed category when controllers is off, and never when
controllers is on. -/
theorem ts_shared_emission :
    ∀ (flags : TsFlags) (base : BaseMetadata)
      (tables : List TableMetadata) (ls : List String),
      generateTSLines flags base tables = .ok ls →
      ∃ blocks, exceptMapM (tsTableBlock flags tables) tables =
          .ok blocks ∧
        ls = tsPreamble flags.controllers
            ((tables.map (fun t => t.fields)).flatten) ++
          blocks.flatten ++ tsScaffold flags.controllers base tables ∧
        blocks.flatten.count tsAttachmentExtra = 0 ∧
        blocks.flatten.count tsCollaboratorExtra = 0 ∧
        (flags.controllers = false →
          ls.count tsAttachmentExtra =
            (if hasAttachmentField
                ((tables.map (fun t => t.fields)).flatten)
             then 1 else 0) ∧
          ls.count tsCollaboratorExtra =
            (if hasCollaboratorField
                ((tables.map (fun t => t.fields)).flatten)
             then 1 else 0)) ∧
        (flags.controllers = true →
          ls.count tsAttachmentExtra = 0 ∧
          ls.count tsCollaboratorExtra = 0) := by
  intro flags base tables ls h
  unfold generateTSLines at h
  split at h
  · simp at h
  · rename_i blocks hmap
    simp only [Except.ok.injEq] at h
    subst h
    have hz : ∀ l ∈ blocks.flatten,
        l ≠ tsAttachmentExtra ∧ l ≠ tsCollaboratorExtra := by
      intro l hl
      rcases List.mem_flatten.mp hl with ⟨b, hb, hlb⟩
      rcases exceptMapM_ok_mem hmap b hb with ⟨t, ht, hok⟩
      exact ts_block_line_ne flags tables t b hok l hlb
    have h0a : blocks.flatten.count tsAttachmentExtra = 0 :=
      count_eq_zero_of_forall_ne (fun l hl => (hz l hl).1)
    have h0c : blocks.flatten.count tsCollaboratorExtra = 0 :=
      count_eq_zero_of_forall_ne (fun l hl => (hz l hl).2)
    have hsa : (tsScaffold flags.controllers base tables).count
        tsAttachmentExtra = 0 :=
      count_eq_zero_of_forall_ne (fun l hl =>
        (ts_scaffold_line_ne flags.controllers base tables l hl).1)
    have hsc : (tsScaffold flags.controllers base tables).count
        tsCollaboratorExtra = 0 :=
      count_eq_zero_of_forall_ne (fun l hl =>
        (ts_scaffold_line_ne flags.controllers base tables l hl).2)
    refine ⟨blocks, hmap, rfl, h0a, h0c, ?_, ?_⟩
    · intro hcf
      rw [hcf] at hsa hsc ⊢
      constructor
      · rw [List.count_append, List.count_append, h0a, hsa,
          (tsPreamble_counts _).1.1]
        omega
      · rw [List.count_append, List.count_append, h0c, hsc,
          (tsPreamble_counts _).1.2]
        omega
    · intro hct
      rw [hct] at hsa hsc ⊢
      constructor
      · rw [List.count_append, List.count_append, h0a, hsa,
          (tsPreamble_counts _).2.1]
      · rw [List.count_append, List.count_append, h0c, hsc,
          (tsPreamble_counts _).2.2]

/-- C5 amended: in the schema-validator dialect, and in the static-typing
dialect without the controllers flag, each needed shared shape is emitted
exactly once, in the preamble before every per-table block, and zero times
when not needed; with the controllers flag the static-typing dialect emits
no shared shapes at all (Airtable library types are imported instead). -/
theorem c5_shared_shapes :
    (∀ (tables : List TableMetadata) (ls : List String),
      generateZodLines tables = .ok ls →
      ∃ blocks, exceptMapM zodTableBlock tables = .ok blocks ∧
        ls = zodPreamble tables ++ blocks.flatten ∧
        blocks.flatten.count AttachmentZodTmpl = 0 ∧
        blocks.flatten.count CollaboratorZodTmpl = 0 ∧
        ls.count AttachmentZodTmpl =
          (if hasAttachmentField ((tables.map (fun t => t.fields)).flatten)
           then 1 else 0) ∧
        ls.count CollaboratorZodTmpl =
          (if hasCollaboratorField ((tables.map (fun t => t.fields)).flatten)
           then 1 else 0)) ∧
    (∀ (flags : TsFlags) (base : BaseMetadata)
      (tables : List TableMetadata) (ls : List String),
      generateTSLines flags base tables = .ok ls →
      ∃ blocks, exceptMapM (tsTableBlock flags tables) tables =
          .ok blocks ∧
        ls = tsPreamble flags.controllers
            ((tables.map (fun t => t.fields)).flatten) ++
          blocks.flatten ++ tsScaffold flags.controllers base tables ∧
        blocks.flatten.count tsAttachmentExtra = 0 ∧
        blocks.flatten.count tsCollaboratorExtra = 0 ∧
        (flags.controllers = false →
          ls.count tsAttachmentExtra =
            (if hasAttachmentField
                ((tables.map (fun t => t.fields)).flatten)
             then 1 else 0) ∧
          ls.count tsCollaboratorExtra =
            (if hasCollaboratorField
                ((tables.map (fun t => t.fields)).flatten)
             then 1 else 0)) ∧
        (flags.controllers = true →
          ls.count tsAttachmentExtra = 0 ∧
          ls.count tsCollaboratorExtra = 0)) :=
  ⟨zod_shared_emission, ts_shared_emission⟩

set_option maxRecDepth 100000 in
set_option maxHeartbeats 4000000 in
/-- C5 counterexample: a controllers-mode run over a table with an
attachment field emits the attachment shape zero times, although the
attachment category is present — refuting the claim for every generation
run. -/
theorem c5_counterexample :
    hasAttachmentField
      (([attachOnlyTable].map (fun t => t.fields)).flatten) = true ∧
    ∃ ls, generateTSLines ⟨true, true⟩ sampleBase [attachOnlyTable] =
        .ok ls ∧
      ls.count tsAttachmentExtra = 0 :=
  ⟨by decide, _, rfl, by decide⟩

set_option maxRecDepth 100000 in
set_option maxHeartbeats 4000000 in
/-- Witness for C5 at a concrete one-table run with an attachment field,
in both dialects. -/
theorem c5_shared_shapes_witness :
    (∃ ls, generateZodLines [attachOnlyTable] = .ok ls ∧
      ls.count AttachmentZodTmpl = 1 ∧
      ls.count CollaboratorZodTmpl = 0) ∧
    (∃ ls, generateTSLines ⟨false, true⟩ sampleBase [attachOnlyTable] =
        .ok ls ∧
      ls.count tsAttachmentExtra = 1 ∧
      ls.count tsCollaboratorExtra = 0) := by
  constructor
  · obtain ⟨blocks, hb, hls, h0a, h0c, hca, hcc⟩ :=
      c5_shared_shapes.1 [attachOnlyTable] _ rfl
    refine ⟨_, rfl, ?_, ?_⟩
    · rw [hca]; decide
    · rw [hcc]; decide
  · obtain ⟨blocks, hb, hls, h0a, h0c, hoff, hon⟩ :=
      c5_shared_shapes.2 ⟨false, true⟩ sampleBase [attachOnlyTable]
        _ rfl
    refine ⟨_, rfl, ?_, ?_⟩
    · rw [(hoff rfl).1]; decide
    · rw [(hoff rfl).2]; decide
